import Mathlib

/-
A verification development for the density-field gridding module
(flip/gridding.py).  The numeric pipeline is embedded shallowly:

* Python floats are modelled as exact rationals; the IEEE special values
  produced by division (inf, -inf, nan) are modelled by the type FPx, so
  that the NaN/inf propagation of the density normalisation and the
  NaN-removal cut can be reasoned about exactly.
* numpy arrays are modelled as Lists, index-aligned.
* np.cos / np.sin, used only by the coordinate transform radec2cart, are
  abstracted as function parameters (cosF, sinF); every concrete run in
  this file uses angles where the true values are 1 and 0.
* np.sqrt is modelled by Real.sqrt on a finite payload (fpSqrt).
* The stochastic draws of the random-catalog generator (np.random.choice /
  np.random.random) are abstracted as an oracle parameter rnd holding the
  drawn Cartesian positions; the three recognised strategies differ only
  in how that oracle is produced.
* The window-function solver, which genuinely needs trigonometry, is
  embedded over ℝ with Real.sin / Real.cos and np.trapz as a finite sum.

Source behaviours modelled bit-for-bit include: the missing else-branch of
the random_method dispatch (Python raises an UnboundLocalError / NameError
on xobj_random), and the generator expression mistakenly handed to
ValueError by grid_data_density (modelled by ValueErrorArg.genExpr, whose
displayed message is an opaque generator repr rather than the enumeration
of kernel names).
-/

set_option maxHeartbeats 1000000

namespace Flip

/-- Argument object passed to a raised ValueError: either a proper string,
or (grid_data_density's invalid-kind branch) a generator expression object,
whose string form is an opaque generator repr that does not enumerate the
kernel names. -/
inductive ValueErrorArg where
  | str (s : String)
  | genExpr
deriving DecidableEq

/-- Python exceptions raised by the gridding module: ValueError for the
configuration checks, NameError for use of an unbound local name. -/
inductive PyError where
  | valueError (a : ValueErrorArg)
  | nameError (n : String)
deriving DecidableEq

/-- IEEE-754-style value: a finite payload or one of the special values
+inf, -inf, nan.  Payload type ℚ models a finite float exactly; payload ℝ
is used after np.sqrt. -/
inductive FPx (α : Type) where
  | fin (x : α)
  | inf
  | ninf
  | nan
deriving DecidableEq

/-- Finite floats as exact rationals with IEEE special values. -/
abbrev FP := FPx ℚ

/-- np.isnan on one element. -/
def FPx.isnan {α : Type} : FPx α → Bool
  | .nan => true
  | _ => false

/-- IEEE float division on the FP model: finite/0 gives ±inf (0/0 gives
nan), finite/inf gives 0, inf/inf gives nan, nan absorbs. -/
def FP.div : FP → FP → FP
  | .nan, _ => .nan
  | _, .nan => .nan
  | .fin a, .fin b =>
      if b = 0 then (if a = 0 then .nan else if 0 < a then .inf else .ninf)
      else .fin (a / b)
  | .fin _, .inf => .fin 0
  | .fin _, .ninf => .fin 0
  | .inf, .fin b => if 0 ≤ b then .inf else .ninf
  | .ninf, .fin b => if 0 ≤ b then .ninf else .inf
  | .inf, .inf => .nan
  | .inf, .ninf => .nan
  | .ninf, .inf => .nan
  | .ninf, .ninf => .nan

/-- IEEE float subtraction on the FP model (used for the final "- 1"). -/
def FP.sub : FP → FP → FP
  | .nan, _ => .nan
  | _, .nan => .nan
  | .fin a, .fin b => .fin (a - b)
  | .fin _, .inf => .ninf
  | .fin _, .ninf => .inf
  | .inf, .fin _ => .inf
  | .ninf, .fin _ => .ninf
  | .inf, .inf => .nan
  | .inf, .ninf => .inf
  | .ninf, .inf => .ninf
  | .ninf, .ninf => .nan

/-- np.sqrt on the FP model: sqrt of a negative finite value or -inf is
nan, sqrt(+inf) = +inf, and a nonnegative finite payload goes to the real
square root. -/
noncomputable def fpSqrt : FP → FPx ℝ
  | .fin q => if q < 0 then .nan else .fin (Real.sqrt (q : ℝ))
  | .inf => .inf
  | .ninf => .nan
  | .nan => .nan

/-- Nearest Grid Point kernel: w = 1.0 * (|ds| < 1/2). -/
def ngp_weight (ds : ℚ) : ℚ := 1 * (if |ds| < 1/2 then 1 else 0)

/-- Nearest Grid Point with weighted error: same weight curve as NGP. -/
def ngp_errw_weight (ds : ℚ) : ℚ := ngp_weight ds

/-- Cloud In Cell kernel: w = (1 - |ds|) * (|ds| < 1). -/
def cic_weight (ds : ℚ) : ℚ := (1 - |ds|) * (if |ds| < 1 then 1 else 0)

/-- Triangular Shaped Cloud kernel:
w = (3/4 - ds^2) * (|ds| < 1/2) + 1/2 (3/2 - |ds|)^2 * (1/2 ≤ |ds| < 3/2). -/
def tsc_weight (ds : ℚ) : ℚ :=
  (3/4 - ds^2) * (if |ds| < 1/2 then 1 else 0)
    + 1/2 * (3/2 - |ds|)^2 * (if 1/2 ≤ |ds| ∧ |ds| < 3/2 then 1 else 0)

/-- Piecewise Cubic Spline kernel:
w = 1/6 (4 - 6 ds^2 + 3 |ds|^3) * (|ds| < 1) + 1/6 (2 - |ds|)^3 * (1 ≤ |ds| < 2). -/
def pcs_weight (ds : ℚ) : ℚ :=
  1/6 * (4 - 6*ds^2 + 3*|ds|^3) * (if |ds| < 1 then 1 else 0)
    + 1/6 * (2 - |ds|)^3 * (if 1 ≤ |ds| ∧ |ds| < 2 then 1 else 0)

/-- Specification formula for NGP: 1 if |ds| < 0.5 else 0. -/
def ngp_weight_spec (ds : ℚ) : ℚ := if |ds| < 1/2 then 1 else 0

/-- Specification formula for CIC: (1 - |ds|) for |ds| < 1, else 0. -/
def cic_weight_spec (ds : ℚ) : ℚ := if |ds| < 1 then 1 - |ds| else 0

/-- Specification formula for TSC: (0.75 - ds^2) for |ds| < 0.5;
0.5 (1.5 - |ds|)^2 for 0.5 ≤ |ds| < 1.5; else 0. -/
def tsc_weight_spec (ds : ℚ) : ℚ :=
  if |ds| < 1/2 then 3/4 - ds^2
  else if |ds| < 3/2 then 1/2 * (3/2 - |ds|)^2
  else 0

/-- Specification formula for PCS: (1/6)(4 - 6 ds^2 + 3 |ds|^3) for
|ds| < 1; (1/6)(2 - |ds|)^3 for 1 ≤ |ds| < 2; else 0. -/
def pcs_weight_spec (ds : ℚ) : ℚ :=
  if |ds| < 1 then 1/6 * (4 - 6*ds^2 + 3*|ds|^3)
  else if |ds| < 2 then 1/6 * (2 - |ds|)^3
  else 0

/-- Sum of kernel weights over the five lattice translates n with
-m-2 ≤ n ≤ -m+2 of a point ds (m is intended as the integer with
m ≤ ds < m+1).  Every kernel in the library vanishes on all translates
outside this window (proved below), so under that hypothesis this finite
sum equals the sum over the whole infinite unit lattice. -/
def latticeSum (w : ℚ → ℚ) (ds : ℚ) (m : ℤ) : ℚ :=
  w (ds - m - 2) + w (ds - m - 1) + w (ds - m) + w (ds - m + 1) + w (ds - m + 2)

/-- The list of valid grid kinds (_GRID_KIND in the source). -/
def _GRID_KIND : List String := ["ngp", "ngp_errw", "cic", "tsc", "pcs"]

/-- Model of the Python str.lower() method. -/
def pyLower (s : String) : String := String.mk (s.data.map Char.toLower)

/-- Pointwise ternary zip used to vectorise the coordinate transform. -/
def zip3With (f : ℚ → ℚ → ℚ → ℚ) (as bs cs : List ℚ) : List ℚ :=
  List.zipWith (fun a p => f a p.1 p.2) as (bs.zip cs)

/-- Coordinates transform: x = r cos(ra) cos(dec), y = r sin(ra) cos(dec),
z = r sin(dec), vectorised over aligned arrays.  cosF / sinF abstract
np.cos / np.sin. -/
def radec2cart (cosF sinF : ℚ → ℚ) (rcom ra dec : List ℚ) :
    List ℚ × List ℚ × List ℚ :=
  (zip3With (fun r a d => r * cosF a * cosF d) rcom ra dec,
   zip3With (fun r a d => r * sinF a * cosF d) rcom ra dec,
   List.zipWith (fun r d => r * sinF d) rcom dec)

/-- Separable 3-D weight of one object o at one voxel center gp:
product of the per-axis kernel evaluations of (grid - obj)/grid_size. -/
def weight3 (wf : ℚ → ℚ) (gs : ℚ) (o gp : ℚ × ℚ × ℚ) : ℚ :=
  wf ((gp.1 - o.1) / gs) * wf ((gp.2.1 - o.2.1) / gs) * wf ((gp.2.2 - o.2.2) / gs)

/-- Density assignment engine.  The source loops over objects accumulating
into vectorised per-voxel arrays grid_val += w, grid_var += w**2,
nobj_in_cell += (w != 0); the per-voxel value of that accumulation is the
sum (resp. count) over the object list, which is how it is written here. -/
def attribute_weight_density (grid_size : ℚ)
    (xobj yobj zobj xgrid ygrid zgrid : List ℚ) (wf : ℚ → ℚ) :
    List ℚ × List ℚ × List ℤ :=
  let objs := xobj.zip (yobj.zip zobj)
  let gps := xgrid.zip (ygrid.zip zgrid)
  (gps.map (fun gp => (objs.map (fun o => weight3 wf grid_size o gp)).sum),
   gps.map (fun gp => (objs.map (fun o => (weight3 wf grid_size o gp)^2)).sum),
   gps.map (fun gp => ((objs.filter (fun o => decide (weight3 wf grid_size o gp ≠ 0))).length : ℤ)))

/-- Kernel dispatch by (already lowercased) name, as done by the source
through globals()[kind + "_weight"]. -/
def kernel_of (k : String) : ℚ → ℚ :=
  if k = "ngp" then ngp_weight
  else if k = "ngp_errw" then ngp_errw_weight
  else if k = "cic" then cic_weight
  else if k = "tsc" then tsc_weight
  else pcs_weight

/-- The central mutable grid aggregate: per-voxel arrays, present or not
(a Python dict acquires the later keys only when the corresponding stage
has run; presence is modelled by Option). -/
structure Grid where
  ra : List ℚ
  dec : List ℚ
  rcom : List ℚ
  x : List ℚ
  y : List ℚ
  z : List ℚ
  sum_weights : Option (List ℚ)
  var_weights : Option (List ℚ)
  nincell : Option (List ℤ)
  sum_weights_random : Option (List ℚ)
  var_weights_random : Option (List ℚ)
  nincell_random : Option (List ℤ)
  density : Option (List FP)
  density_err : Option (List (FPx ℝ))
  density_nincell : Option (List FP)

/-- Store the data-catalog assignment arrays on the grid. -/
def Grid.withAssign (g : Grid) (sw vw : List ℚ) (nc : List ℤ) : Grid :=
  ⟨g.ra, g.dec, g.rcom, g.x, g.y, g.z, some sw, some vw, some nc,
   g.sum_weights_random, g.var_weights_random, g.nincell_random,
   g.density, g.density_err, g.density_nincell⟩

/-- Store the random-catalog assignment arrays and the three density
fields on the grid. -/
def Grid.withRandomDensity (g : Grid) (swr vwr : List ℚ) (ncr : List ℤ)
    (d : List FP) (de : List (FPx ℝ)) (dn : List FP) : Grid :=
  ⟨g.ra, g.dec, g.rcom, g.x, g.y, g.z, g.sum_weights, g.var_weights, g.nincell,
   some swr, some vwr, some ncr, some d, some de, some dn⟩

/-- density = (sum_weights / Σ sum_weights) / (sum_weights_random /
Σ sum_weights_random) - 1, with IEEE propagation of zero denominators. -/
def densityArr (sw swr : List ℚ) : List FP :=
  List.zipWith
    (fun a b =>
      FP.sub (FP.div (FP.div (FPx.fin a) (FPx.fin sw.sum))
                     (FP.div (FPx.fin b) (FPx.fin swr.sum)))
             (FPx.fin 1))
    sw swr

/-- density_nincell: the same ratio estimator with the occupation counts
in place of the weighted sums (integer arrays true-divide to floats). -/
def densityNincellArr (nc ncr : List ℤ) : List FP :=
  List.zipWith
    (fun (a b : ℤ) =>
      FP.sub (FP.div (FP.div (FPx.fin ((a : ℚ))) (FPx.fin ((nc.sum : ℤ) : ℚ)))
                     (FP.div (FPx.fin ((b : ℚ))) (FPx.fin ((ncr.sum : ℤ) : ℚ))))
             (FPx.fin 1))
    nc ncr

/-- density_err = sqrt(Nrandom / nincell_random), elementwise. -/
noncomputable def densityErrArr (Nrandom : ℕ) (ncr : List ℤ) : List (FPx ℝ) :=
  ncr.map (fun (c : ℤ) => fpSqrt (FP.div (FPx.fin ((Nrandom : ℚ))) (FPx.fin ((c : ℚ)))))

/-- The enumerating error message built by compute_grid_window for an
invalid kernel name. -/
def gridKindMsg : String := "INVALID GRID TYPE ! Grid allowed : ngp ngp_errw cic tsc pcs "

/-- Pointwise conjunction of two boolean masks (mask &= criterion). -/
def andMask (m l : List Bool) : List Bool := List.zipWith and m l

/-- Boolean-mask indexing arr[mask]: keep the entries whose mask bit is
true. -/
def applyMask {α : Type} (m : List Bool) (l : List α) : List α :=
  (List.zip m l).filterMap (fun p => if p.1 then some p.2 else none)

/-- One optional cut criterion: when the threshold is given, conjoin the
pointwise comparison of the criterion array into the mask (mask &= ...);
when it is None, leave the mask unchanged. -/
def critMask {α β : Type} (m : List Bool) (o : Option α) (arr : List β)
    (f : α → β → Bool) : List Bool :=
  match o with
  | none => m
  | some c => andMask m (arr.map (f c))

/-- The NaN-removal criterion: when remove_nan_density is set and the
field is present in the grid, conjoin ~isnan(field) into the mask. -/
def nanMask {α : Type} (m : List Bool) (remove_nan_density : Bool)
    (o : Option (List (FPx α))) : List Bool :=
  if remove_nan_density then
    match o with
    | none => m
    | some d => andMask m (d.map (fun v => !(FPx.isnan v)))
  else m

/-- The combined boolean mask of cut_grid: all active criteria and the
NaN-removal of density / density_err when those fields are present. -/
def cut_mask (g : Grid) (remove_nan_density : Bool) (n_cut : Option ℤ)
    (weight_min : Option ℚ) (rcom_max xmax ymax zmax : Option ℚ) : List Bool :=
  let m := List.replicate g.ra.length true
  let m := critMask m n_cut (g.nincell.getD []) (fun c v => decide (c < v))
  let m := critMask m weight_min (g.sum_weights.getD []) (fun c v => decide (c < v))
  let m := critMask m rcom_max g.rcom (fun c v => decide (v < c))
  let m := critMask m xmax g.x (fun c v => decide (|v| < c))
  let m := critMask m ymax g.y (fun c v => decide (|v| < c))
  let m := critMask m zmax g.z (fun c v => decide (|v| < c))
  let m := nanMask m remove_nan_density g.density
  let m := nanMask m remove_nan_density g.density_err
  m

/-- cut_grid: compute the combined mask once, then re-slice every
per-voxel array of the grid by that same mask, in place. -/
def cut_grid (g : Grid) (remove_nan_density : Bool) (n_cut : Option ℤ)
    (weight_min : Option ℚ) (rcom_max xmax ymax zmax : Option ℚ) : Grid :=
  let m := cut_mask g remove_nan_density n_cut weight_min rcom_max xmax ymax zmax
  ⟨applyMask m g.ra, applyMask m g.dec, applyMask m g.rcom,
   applyMask m g.x, applyMask m g.y, applyMask m g.z,
   g.sum_weights.map (applyMask m), g.var_weights.map (applyMask m),
   g.nincell.map (applyMask m),
   g.sum_weights_random.map (applyMask m), g.var_weights_random.map (applyMask m),
   g.nincell_random.map (applyMask m),
   g.density.map (applyMask m), g.density_err.map (applyMask m),
   g.density_nincell.map (applyMask m)⟩

/-- The data-catalog assignment performed by grid_data_density: transform
both catalogs to Cartesian and run the assignment engine with the selected
kernel. -/
def dataAssign (cosF sinF : ℚ → ℚ) (g : Grid) (gs : ℚ)
    (ra dec rcom : List ℚ) (k : String) : List ℚ × List ℚ × List ℤ :=
  let o := radec2cart cosF sinF rcom ra dec
  let gc := radec2cart cosF sinF g.rcom g.ra g.dec
  attribute_weight_density gs o.1 o.2.1 o.2.2 gc.1 gc.2.1 gc.2.2 (kernel_of k)

/-- The random-catalog assignment performed by grid_data_density: the
oracle rnd holds the drawn Cartesian random positions. -/
def randAssign (cosF sinF : ℚ → ℚ) (g : Grid) (gs : ℚ)
    (rnd : List (ℚ × ℚ × ℚ)) (k : String) : List ℚ × List ℚ × List ℤ :=
  let gc := radec2cart cosF sinF g.rcom g.ra g.dec
  attribute_weight_density gs (rnd.map (fun o => o.1)) (rnd.map (fun o => o.2.1))
    (rnd.map (fun o => o.2.2)) gc.1 gc.2.1 gc.2.2 (kernel_of k)

/-- Body of grid_data_density after the kind check, with k the validated
lowercase kernel name: data assignment, then (when compute_density) the
random-catalog pass and the three density fields.  A random_method outside
{choice, healpix, cartesian} falls through every branch of the dispatch
and the subsequent use of xobj_random raises a NameError. -/
noncomputable def grid_data_density_checked (cosF sinF : ℚ → ℚ) (g : Grid)
    (gs : ℚ) (ra dec rcom : List ℚ) (k : String) (compute_density : Bool)
    (Nrandom : ℕ) (random_method : String) (rnd : List (ℚ × ℚ × ℚ)) :
    Except PyError Grid :=
  let a := dataAssign cosF sinF g gs ra dec rcom k
  let g1 := g.withAssign a.1 a.2.1 a.2.2
  if compute_density then
    if random_method = "choice" ∨ random_method = "healpix" ∨ random_method = "cartesian" then
      let ar := randAssign cosF sinF g gs rnd k
      Except.ok (g1.withRandomDensity ar.1 ar.2.1 ar.2.2
        (densityArr a.1 ar.1) (densityErrArr Nrandom ar.2.2)
        (densityNincellArr a.2.2 ar.2.2))
    else Except.error (PyError.nameError "xobj_random")
  else Except.ok g1

/-- grid_data_density up to (and excluding) its final cut_grid call:
lowercase the kind, validate it against _GRID_KIND (raising ValueError
with the generator-expression argument on failure), then run the checked
body. -/
noncomputable def grid_data_density_core (cosF sinF : ℚ → ℚ) (g : Grid)
    (gs : ℚ) (ra dec rcom : List ℚ) (kind : String) (compute_density : Bool)
    (Nrandom : ℕ) (random_method : String) (rnd : List (ℚ × ℚ × ℚ)) :
    Except PyError Grid :=
  let k := pyLower kind
  if k ∈ _GRID_KIND then
    grid_data_density_checked cosF sinF g gs ra dec rcom k compute_density
      Nrandom random_method rnd
  else Except.error (PyError.valueError ValueErrorArg.genExpr)

/-- grid_data_density: the core, followed by
cut_grid(grid, n_cut=n_cut, weight_min=weight_min) with NaN removal on. -/
noncomputable def grid_data_density (cosF sinF : ℚ → ℚ) (g : Grid) (gs : ℚ)
    (ra dec rcom : List ℚ) (kind : String) (n_cut : Option ℤ)
    (weight_min : Option ℚ) (compute_density : Bool) (Nrandom : ℕ)
    (random_method : String) (rnd : List (ℚ × ℚ × ℚ)) : Except PyError Grid :=
  Except.map
    (fun g2 => cut_grid g2 true n_cut weight_min none none none none)
    (grid_data_density_core cosF sinF g gs ra dec rcom kind compute_density
      Nrandom random_method rnd)

/-- grid_data_density_pypower up to the hand-off to the external pypower
CatalogMesh backend (out of scope per the spec): Cartesian transform,
bounding-box filter of the data catalog, then the random-method dispatch,
which has no else-branch either, so an unknown strategy raises NameError
at the first use of xobj_random.  On success it returns the data and
random position lists that would be handed to CatalogMesh. -/
def grid_data_density_pypower (cosF sinF : ℚ → ℚ)
    (raobj decobj rcomobj : List ℚ) (rcom_max grid_size : ℚ)
    (grid_type kind : String) (Nrandom : ℕ) (random_method : String)
    (rnd : List (ℚ × ℚ × ℚ)) :
    Except PyError (List (ℚ × ℚ × ℚ) × List (ℚ × ℚ × ℚ)) :=
  let c := radec2cart cosF sinF rcomobj raobj decobj
  let objs := (c.1.zip (c.2.1.zip c.2.2)).filter
    (fun o => decide (|o.1| < rcom_max) && decide (|o.2.1| < rcom_max)
      && decide (|o.2.2| < rcom_max))
  if random_method = "choice" ∨ random_method = "healpix" ∨ random_method = "cartesian" then
    Except.ok (objs, rnd)
  else Except.error (PyError.nameError "xobj_random")

/-- Projection: the density field of a successful run. -/
def okDensity (e : Except PyError Grid) : Option (Option (List FP)) :=
  match e with
  | .ok g => some g.density
  | .error _ => none

/-- Projection: the number of retained voxels (length of ra) of a
successful run. -/
def okRaLen (e : Except PyError Grid) : Option ℕ :=
  match e with
  | .ok g => some g.ra.length
  | .error _ => none

/-- Whether a result is a raised ValueError (the configuration-error
kind), as opposed to success or any other exception. -/
def exceptIsValueError {α : Type} : Except PyError α → Bool
  | .error (.valueError _) => true
  | _ => false

/-- np.sinc (normalised): sinc x = sin(pi x)/(pi x), with sinc 0 = 1. -/
noncomputable def npSinc (x : ℝ) : ℝ :=
  if x = 0 then 1 else Real.sin (Real.pi * x) / (Real.pi * x)

/-- np.linspace(a, b, n) as a function of the index: n evenly spaced
points from a to b inclusive. -/
noncomputable def linspace (a b : ℝ) (n : ℕ) (i : ℕ) : ℝ :=
  a + (b - a) * i / ((n : ℝ) - 1)

/-- np.trapz(y, x) over n samples: the trapezoidal rule
Σ_{i<n-1} (x_{i+1} - x_i) (y_i + y_{i+1}) / 2. -/
noncomputable def trapz (y x : ℕ → ℝ) (n : ℕ) : ℝ :=
  ∑ i in Finset.range (n-1), (x (i+1) - x i) * (y i + y (i+1)) / 2

/-- One entry of _compute_grid_window: integrate over the discretised
sphere of directions (n polar x n azimuthal samples) the product of the
three axis sincs raised to the kernel order, weighted by the solid-angle
element sin(theta), by nested trapezoidal rules (azimuth first), and
divide by 4 pi. -/
noncomputable def window_at (grid_size k : ℝ) (order n : ℕ) : ℝ :=
  let theta := linspace 0 Real.pi n
  let phi := linspace 0 (2 * Real.pi) n
  let fact := k * grid_size / (2 * Real.pi)
  let func := fun i j =>
    (npSinc (fact * (Real.sin (theta i) * Real.cos (phi j)))
      * npSinc (fact * (Real.sin (theta i) * Real.sin (phi j)))
      * npSinc (fact * Real.cos (theta i))) ^ order * Real.sin (theta i)
  (trapz (fun i => trapz (fun j => func i j) phi n) theta n) * (1 / (4 * Real.pi))

/-- _compute_grid_window: the window function at each requested
wavenumber. -/
noncomputable def _compute_grid_window (grid_size : ℝ) (k : List ℝ)
    (order n : ℕ) : List ℝ :=
  k.map (fun kv => window_at grid_size kv order n)

/-- The kernel interpolation order table (_order_dic in the source). -/
def _order_dic (k : String) : ℕ :=
  if k = "ngp" then 1
  else if k = "ngp_errw" then 1
  else if k = "cic" then 2
  else if k = "tsc" then 3
  else 4

/-- compute_grid_window: validate the kind (this entry point does NOT
lowercase it), return None for a zero grid size, otherwise compute the
window at the requested wavenumbers. -/
noncomputable def compute_grid_window (grid_size : ℝ) (kh : List ℝ)
    (kind : String) (n : ℕ) : Except PyError (Option (List ℝ)) :=
  if kind ∈ _GRID_KIND then
    if grid_size = 0 then Except.ok none
    else Except.ok (some (_compute_grid_window grid_size kh (_order_dic kind) n))
  else Except.error (PyError.valueError (ValueErrorArg.str gridKindMsg))

/-- The trapezoidal-rule approximation of the integral of sin over
[0, pi] with n samples (the exact value of the k = 0 window is half of
this). -/
noncomputable def sinTrapz (n : ℕ) : ℝ :=
  trapz (fun i => Real.sin (linspace 0 Real.pi n i)) (linspace 0 Real.pi n) n

/-- Concrete stand-in for np.cos in runs whose angles are all 0
(cos 0 = 1). -/
def cosAtZero : ℚ → ℚ := fun _ => 1

/-- Concrete stand-in for np.sin in runs whose angles are all 0
(sin 0 = 0). -/
def sinAtZero : ℚ → ℚ := fun _ => 0

/-- A two-voxel grid on the x-axis (voxel centers at radii 1 and 2,
ra = dec = 0), used by the concrete runs below. -/
def gridEx2 : Grid :=
  ⟨[0, 0], [0, 0], [1, 2], [1, 2], [0, 0], [0, 0],
   none, none, none, none, none, none, none, none, none⟩

/-- A one-voxel grid at radius 1 on the x-axis. -/
def gridEx1 : Grid :=
  ⟨[0], [0], [1], [1], [0], [0],
   none, none, none, none, none, none, none, none, none⟩

/-! Kernel evaluation helpers: closed forms of each kernel on the regimes
of |ds|. -/

theorem ngp_eval_lt {x : ℚ} (h : |x| < 1/2) : ngp_weight x = 1 := by
  unfold ngp_weight
  rw [if_pos h]
  norm_num

theorem ngp_eval_ge {x : ℚ} (h : 1/2 ≤ |x|) : ngp_weight x = 0 := by
  unfold ngp_weight
  rw [if_neg (not_lt.2 h)]
  norm_num

theorem cic_eval_lt {x : ℚ} (h : |x| < 1) : cic_weight x = 1 - |x| := by
  unfold cic_weight
  rw [if_pos h]
  ring

theorem cic_eval_ge {x : ℚ} (h : 1 ≤ |x|) : cic_weight x = 0 := by
  unfold cic_weight
  rw [if_neg (not_lt.2 h)]
  ring

theorem tsc_eval_lo {x : ℚ} (h : |x| < 1/2) : tsc_weight x = 3/4 - x^2 := by
  have h2 : ¬(1/2 ≤ |x| ∧ |x| < 3/2) := fun hc => absurd h (not_lt.2 hc.1)
  unfold tsc_weight
  rw [if_pos h, if_neg h2]
  ring

theorem tsc_eval_mid {x : ℚ} (h1 : 1/2 ≤ |x|) (h2 : |x| < 3/2) :
    tsc_weight x = 1/2 * (3/2 - |x|)^2 := by
  unfold tsc_weight
  rw [if_neg (not_lt.2 h1), if_pos ⟨h1, h2⟩]
  ring

theorem tsc_eval_hi {x : ℚ} (h : 3/2 ≤ |x|) : tsc_weight x = 0 := by
  have h1 : ¬(|x| < 1/2) := not_lt.2 (by linarith)
  have h2 : ¬(1/2 ≤ |x| ∧ |x| < 3/2) := fun hc => absurd hc.2 (not_lt.2 h)
  unfold tsc_weight
  rw [if_neg h1, if_neg h2]
  ring

theorem pcs_eval_lo {x : ℚ} (h : |x| < 1) :
    pcs_weight x = 1/6 * (4 - 6*x^2 + 3*|x|^3) := by
  have h2 : ¬(1 ≤ |x| ∧ |x| < 2) := fun hc => absurd h (not_lt.2 hc.1)
  unfold pcs_weight
  rw [if_pos h, if_neg h2]
  ring

theorem pcs_eval_mid {x : ℚ} (h1 : 1 ≤ |x|) (h2 : |x| < 2) :
    pcs_weight x = 1/6 * (2 - |x|)^3 := by
  unfold pcs_weight
  rw [if_neg (not_lt.2 h1), if_pos ⟨h1, h2⟩]
  ring

theorem pcs_eval_hi {x : ℚ} (h : 2 ≤ |x|) : pcs_weight x = 0 := by
  have h1 : ¬(|x| < 1) := not_lt.2 (by linarith)
  have h2 : ¬(1 ≤ |x| ∧ |x| < 2) := fun hc => absurd hc.2 (not_lt.2 h)
  unfold pcs_weight
  rw [if_neg h1, if_neg h2]
  ring

/-- All five kernels vanish once the separation reaches 2 cells. -/
theorem kernels_zero_of_two_le {x : ℚ} (h : 2 ≤ |x|) :
    ngp_weight x = 0 ∧ ngp_errw_weight x = 0 ∧ cic_weight x = 0
    ∧ tsc_weight x = 0 ∧ pcs_weight x = 0 := by
  refine ⟨ngp_eval_ge (by linarith), ?_, cic_eval_ge (by linarith),
    tsc_eval_hi (by linarith), pcs_eval_hi h⟩
  rw [ngp_errw_weight]
  exact ngp_eval_ge (by linarith)

/-! Partition-of-unity lemmas for the lattice sums.  Throughout, m is the
integer with m ≤ ds < m+1 and f := ds - m is the fractional offset. -/

theorem cic_latticeSum {ds : ℚ} {m : ℤ} (h1 : (m:ℚ) ≤ ds) (h2 : ds < (m:ℚ) + 1) :
    latticeSum cic_weight ds m = 1 := by
  unfold latticeSum
  set f := ds - (m:ℚ) with hf
  have hf0 : 0 ≤ f := by rw [hf]; linarith
  have hf1 : f < 1 := by rw [hf]; linarith
  have a1 : |f - 2| = 2 - f := by rw [abs_of_nonpos (by linarith)]; ring
  have a2 : |f - 1| = 1 - f := by rw [abs_of_nonpos (by linarith)]; ring
  have a3 : |f| = f := abs_of_nonneg hf0
  have a4 : |f + 1| = f + 1 := abs_of_nonneg (by linarith)
  have a5 : |f + 2| = f + 2 := abs_of_nonneg (by linarith)
  have e1 : cic_weight (f - 2) = 0 := cic_eval_ge (by rw [a1]; linarith)
  have e3 : cic_weight f = 1 - f := by rw [cic_eval_lt (by rw [a3]; linarith), a3]
  have e4 : cic_weight (f + 1) = 0 := cic_eval_ge (by rw [a4]; linarith)
  have e5 : cic_weight (f + 2) = 0 := cic_eval_ge (by rw [a5]; linarith)
  rcases eq_or_lt_of_le hf0 with h0 | h0
  · have e2 : cic_weight (f - 1) = 0 := cic_eval_ge (by rw [a2]; linarith)
    rw [e1, e2, e3, e4, e5]
    linarith
  · have e2 : cic_weight (f - 1) = 1 - |f - 1| :=
      cic_eval_lt (by rw [a2]; linarith)
    rw [e1, e2, a2, e3, e4, e5]
    ring

theorem tsc_latticeSum {ds : ℚ} {m : ℤ} (h1 : (m:ℚ) ≤ ds) (h2 : ds < (m:ℚ) + 1) :
    latticeSum tsc_weight ds m = 1 := by
  unfold latticeSum
  set f := ds - (m:ℚ) with hf
  have hf0 : 0 ≤ f := by rw [hf]; linarith
  have hf1 : f < 1 := by rw [hf]; linarith
  have a1 : |f - 2| = 2 - f := by rw [abs_of_nonpos (by linarith)]; ring
  have a2 : |f - 1| = 1 - f := by rw [abs_of_nonpos (by linarith)]; ring
  have a3 : |f| = f := abs_of_nonneg hf0
  have a4 : |f + 1| = f + 1 := abs_of_nonneg (by linarith)
  have a5 : |f + 2| = f + 2 := abs_of_nonneg (by linarith)
  have e5 : tsc_weight (f + 2) = 0 := tsc_eval_hi (by rw [a5]; linarith)
  rcases lt_trichotomy f (1/2) with hc | hc | hc
  · have e1 : tsc_weight (f - 2) = 0 := tsc_eval_hi (by rw [a1]; linarith)
    have e2 : tsc_weight (f - 1) = 1/2 * (3/2 - |f - 1|)^2 :=
      tsc_eval_mid (by rw [a2]; linarith) (by rw [a2]; linarith)
    have e3 : tsc_weight f = 3/4 - f^2 := tsc_eval_lo (by rw [a3]; linarith)
    have e4 : tsc_weight (f + 1) = 1/2 * (3/2 - |f + 1|)^2 :=
      tsc_eval_mid (by rw [a4]; linarith) (by rw [a4]; linarith)
    rw [e1, e2, a2, e3, e4, a4, e5]
    ring
  · have e1 : tsc_weight (f - 2) = 0 := tsc_eval_hi (by rw [a1]; linarith)
    have e2 : tsc_weight (f - 1) = 1/2 * (3/2 - |f - 1|)^2 :=
      tsc_eval_mid (by rw [a2]; linarith) (by rw [a2]; linarith)
    have e3 : tsc_weight f = 1/2 * (3/2 - |f|)^2 :=
      tsc_eval_mid (by rw [a3]; linarith) (by rw [a3]; linarith)
    have e4 : tsc_weight (f + 1) = 0 := tsc_eval_hi (by rw [a4]; linarith)
    rw [e1, e2, a2, e3, a3, e4, e5, hc]
    norm_num
  · have e1 : tsc_weight (f - 2) = 1/2 * (3/2 - |f - 2|)^2 :=
      tsc_eval_mid (by rw [a1]; linarith) (by rw [a1]; linarith)
    have e2 : tsc_weight (f - 1) = 3/4 - (f - 1)^2 :=
      tsc_eval_lo (by rw [a2]; linarith)
    have e3 : tsc_weight f = 1/2 * (3/2 - |f|)^2 :=
      tsc_eval_mid (by rw [a3]; linarith) (by rw [a3]; linarith)
    have e4 : tsc_weight (f + 1) = 0 := tsc_eval_hi (by rw [a4]; linarith)
    rw [e1, a1, e2, e3, a3, e4, e5]
    ring

theorem pcs_latticeSum {ds : ℚ} {m : ℤ} (h1 : (m:ℚ) ≤ ds) (h2 : ds < (m:ℚ) + 1) :
    latticeSum pcs_weight ds m = 1 := by
  unfold latticeSum
  set f := ds - (m:ℚ) with hf
  have hf0 : 0 ≤ f := by rw [hf]; linarith
  have hf1 : f < 1 := by rw [hf]; linarith
  have a1 : |f - 2| = 2 - f := by rw [abs_of_nonpos (by linarith)]; ring
  have a2 : |f - 1| = 1 - f := by rw [abs_of_nonpos (by linarith)]; ring
  have a3 : |f| = f := abs_of_nonneg hf0
  have a4 : |f + 1| = f + 1 := abs_of_nonneg (by linarith)
  have a5 : |f + 2| = f + 2 := abs_of_nonneg (by linarith)
  have e3 : pcs_weight f = 1/6 * (4 - 6*f^2 + 3*|f|^3) :=
    pcs_eval_lo (by rw [a3]; linarith)
  have e4 : pcs_weight (f + 1) = 1/6 * (2 - |f + 1|)^3 :=
    pcs_eval_mid (by rw [a4]; linarith) (by rw [a4]; linarith)
  have e5 : pcs_weight (f + 2) = 0 := pcs_eval_hi (by rw [a5]; linarith)
  rcases eq_or_lt_of_le hf0 with h0 | h0
  · have e1 : pcs_weight (f - 2) = 0 := pcs_eval_hi (by rw [a1]; linarith)
    have e2 : pcs_weight (f - 1) = 1/6 * (2 - |f - 1|)^3 :=
      pcs_eval_mid (by rw [a2]; linarith) (by rw [a2]; linarith)
    rw [e1, e2, a2, e3, a3, e4, a4, e5, ← h0]
    norm_num
  · have e1 : pcs_weight (f - 2) = 1/6 * (2 - |f - 2|)^3 :=
      pcs_eval_mid (by rw [a1]; linarith) (by rw [a1]; linarith)
    have e2 : pcs_weight (f - 1) = 1/6 * (4 - 6*(f - 1)^2 + 3*|f - 1|^3) :=
      pcs_eval_lo (by rw [a2]; linarith)
    rw [e1, a1, e2, a2, e3, a3, e4, a4, e5]
    ring

theorem ngp_latticeSum {ds : ℚ} {m : ℤ} (h1 : (m:ℚ) ≤ ds) (h2 : ds < (m:ℚ) + 1)
    (hhalf : ds - (m:ℚ) ≠ 1/2) : latticeSum ngp_weight ds m = 1 := by
  unfold latticeSum
  set f := ds - (m:ℚ) with hf
  have hf0 : 0 ≤ f := by rw [hf]; linarith
  have hf1 : f < 1 := by rw [hf]; linarith
  have a1 : |f - 2| = 2 - f := by rw [abs_of_nonpos (by linarith)]; ring
  have a2 : |f - 1| = 1 - f := by rw [abs_of_nonpos (by linarith)]; ring
  have a3 : |f| = f := abs_of_nonneg hf0
  have a4 : |f + 1| = f + 1 := abs_of_nonneg (by linarith)
  have a5 : |f + 2| = f + 2 := abs_of_nonneg (by linarith)
  have e1 : ngp_weight (f - 2) = 0 := ngp_eval_ge (by rw [a1]; linarith)
  have e4 : ngp_weight (f + 1) = 0 := ngp_eval_ge (by rw [a4]; linarith)
  have e5 : ngp_weight (f + 2) = 0 := ngp_eval_ge (by rw [a5]; linarith)
  rcases lt_or_gt_of_ne hhalf with hc | hc
  · have e2 : ngp_weight (f - 1) = 0 := ngp_eval_ge (by rw [a2]; linarith)
    have e3 : ngp_weight f = 1 := ngp_eval_lt (by rw [a3]; linarith)
    rw [e1, e2, e3, e4, e5]
    norm_num
  · have e2 : ngp_weight (f - 1) = 1 := ngp_eval_lt (by rw [a2]; linarith)
    have e3 : ngp_weight f = 0 := ngp_eval_ge (by rw [a3]; linarith)
    rw [e1, e2, e3, e4, e5]
    norm_num

/-- C3: each named kernel function equals its specification piecewise
formula at every normalised separation ds, and ngp_errw has the identical
weight curve to NGP. -/
theorem kernels_match_spec_formulas (ds : ℚ) :
    ngp_weight ds = ngp_weight_spec ds ∧ ngp_errw_weight ds = ngp_weight ds
    ∧ cic_weight ds = cic_weight_spec ds ∧ tsc_weight ds = tsc_weight_spec ds
    ∧ pcs_weight ds = pcs_weight_spec ds := by
  refine ⟨?_, rfl, ?_, ?_, ?_⟩
  · unfold ngp_weight ngp_weight_spec
    split_ifs <;> ring
  · unfold cic_weight cic_weight_spec
    split_ifs <;> ring
  · rcases lt_or_le |ds| (1/2) with h | h
    · rw [tsc_eval_lo h]
      unfold tsc_weight_spec
      rw [if_pos h]
    · rcases lt_or_le |ds| (3/2) with h2 | h2
      · rw [tsc_eval_mid h h2]
        unfold tsc_weight_spec
        rw [if_neg (not_lt.2 h), if_pos h2]
      · rw [tsc_eval_hi h2]
        unfold tsc_weight_spec
        rw [if_neg (not_lt.2 (by linarith)), if_neg (not_lt.2 h2)]
  · rcases lt_or_le |ds| 1 with h | h
    · rw [pcs_eval_lo h]
      unfold pcs_weight_spec
      rw [if_pos h]
    · rcases lt_or_le |ds| 2 with h2 | h2
      · rw [pcs_eval_mid h h2]
        unfold pcs_weight_spec
        rw [if_neg (not_lt.2 h), if_pos h2]
      · rw [pcs_eval_hi h2]
        unfold pcs_weight_spec
        rw [if_neg (not_lt.2 (by linarith)), if_neg (not_lt.2 h2)]

/-- C2 (amended): each kernel vanishes beyond its support radius; all
five kernels vanish on every lattice translate outside the 5-point window
around ds; the lattice sum of weights is exactly 1 for CIC, TSC and PCS at
every ds, and for NGP (hence ngp_errw) at every ds whose fractional offset
is not exactly 1/2 — at half-cell offsets the NGP lattice sum is 0, not 1
(see the counterexample). -/
theorem kernel_support_and_partition (ds : ℚ) (m : ℤ)
    (h1 : (m:ℚ) ≤ ds) (h2 : ds < (m:ℚ) + 1) :
    ((1/2 < |ds| → ngp_weight ds = 0 ∧ ngp_errw_weight ds = 0)
      ∧ (1 < |ds| → cic_weight ds = 0)
      ∧ (3/2 < |ds| → tsc_weight ds = 0)
      ∧ (2 < |ds| → pcs_weight ds = 0))
    ∧ (∀ n : ℤ, n < -m - 2 ∨ -m + 2 < n →
        ngp_weight (ds + n) = 0 ∧ ngp_errw_weight (ds + n) = 0
        ∧ cic_weight (ds + n) = 0 ∧ tsc_weight (ds + n) = 0
        ∧ pcs_weight (ds + n) = 0)
    ∧ (latticeSum cic_weight ds m = 1 ∧ latticeSum tsc_weight ds m = 1
      ∧ latticeSum pcs_weight ds m = 1)
    ∧ (ds - (m:ℚ) ≠ 1/2 →
        latticeSum ngp_weight ds m = 1 ∧ latticeSum ngp_errw_weight ds m = 1) := by
  refine ⟨⟨?_, ?_, ?_, ?_⟩, ?_, ⟨cic_latticeSum h1 h2, tsc_latticeSum h1 h2,
    pcs_latticeSum h1 h2⟩, ?_⟩
  · intro h
    refine ⟨ngp_eval_ge (le_of_lt h), ?_⟩
    rw [ngp_errw_weight]
    exact ngp_eval_ge (le_of_lt h)
  · intro h
    exact cic_eval_ge (le_of_lt h)
  · intro h
    exact tsc_eval_hi (le_of_lt h)
  · intro h
    exact pcs_eval_hi (le_of_lt h)
  · intro n hn
    have habs : 2 ≤ |ds + n| := by
      rcases hn with hlo | hhi
      · have hq : (n:ℚ) ≤ -(m:ℚ) - 3 := by
          have : n ≤ -m - 3 := by omega
          exact_mod_cast this
        rw [abs_of_nonpos (by linarith)]
        linarith
      · have hq : -(m:ℚ) + 3 ≤ (n:ℚ) := by
          have : -m + 3 ≤ n := by omega
          exact_mod_cast this
        rw [abs_of_nonneg (by linarith)]
        linarith
    exact kernels_zero_of_two_le habs
  · intro hh
    refine ⟨ngp_latticeSum h1 h2 hh, ?_⟩
    have : latticeSum ngp_errw_weight ds m = latticeSum ngp_weight ds m := by
      unfold latticeSum ngp_errw_weight
      ring
    rw [this]
    exact ngp_latticeSum h1 h2 hh

/-- C2 counterexample: at the half-cell offset ds = 1/2 the NGP lattice
sum is 0 (every translate has |1/2 + n| ≥ 1/2, where the strict NGP window
gives weight 0), so it is not 1 as the claim asserts for every real ds. -/
theorem ngp_partition_fails_at_half :
    latticeSum ngp_weight (1/2) 0 = 0 ∧ latticeSum ngp_errw_weight (1/2) 0 = 0
    ∧ ngp_weight (1/2) = 0 ∧ ngp_weight (-(1/2)) = 0 := by
  have hz : ∀ x : ℚ, 1/2 ≤ |x| → ngp_weight x = 0 := fun x hx => ngp_eval_ge hx
  have t1 : ngp_weight ((1:ℚ)/2 - 0 - 2) = 0 := by
    refine hz _ ?_
    rw [abs_of_nonpos (by norm_num)]
    norm_num
  have t2 : ngp_weight ((1:ℚ)/2 - 0 - 1) = 0 := by
    refine hz _ ?_
    rw [abs_of_nonpos (by norm_num)]
    norm_num
  have t3 : ngp_weight ((1:ℚ)/2 - 0) = 0 := by
    refine hz _ ?_
    rw [abs_of_nonneg (by norm_num)]
    norm_num
  have t4 : ngp_weight ((1:ℚ)/2 - 0 + 1) = 0 := by
    refine hz _ ?_
    rw [abs_of_nonneg (by norm_num)]
    norm_num
  have t5 : ngp_weight ((1:ℚ)/2 - 0 + 2) = 0 := by
    refine hz _ ?_
    rw [abs_of_nonneg (by norm_num)]
    norm_num
  have hsum : latticeSum ngp_weight (1/2) 0 = 0 := by
    unfold latticeSum
    push_cast
    rw [t1, t2, t3, t4, t5]
    norm_num
  have hsum2 : latticeSum ngp_errw_weight (1/2) 0 = 0 := by
    unfold latticeSum ngp_errw_weight
    push_cast
    rw [t1, t2, t3, t4, t5]
    norm_num
  refine ⟨hsum, hsum2, ?_, ?_⟩
  · refine hz _ ?_
    rw [abs_of_nonneg (by norm_num)]
  · refine hz _ ?_
    rw [abs_of_nonpos (by norm_num)]
    norm_num

/-- C2 witness: the amended support-and-partition theorem instantiated at
ds = 3/4 (fractional offset 3/4 ≠ 1/2) with every hypothesis discharged. -/
theorem kernel_support_and_partition_witness :
    latticeSum cic_weight (3/4) 0 = 1 ∧ latticeSum tsc_weight (3/4) 0 = 1
    ∧ latticeSum pcs_weight (3/4) 0 = 1 ∧ latticeSum ngp_weight (3/4) 0 = 1
    ∧ ngp_weight (3/4) = 0 := by
  have h := kernel_support_and_partition (3/4) 0 (by norm_num) (by norm_num)
  refine ⟨h.2.2.1.1, h.2.2.1.2.1, h.2.2.1.2.2, (h.2.2.2 (by norm_num)).1, ?_⟩
  exact (h.1.1 (by rw [abs_of_nonneg (by norm_num)]; norm_num)).1

/-! Nonnegativity of the kernel library. -/

theorem ngp_nonneg (x : ℚ) : 0 ≤ ngp_weight x := by
  unfold ngp_weight
  split_ifs <;> norm_num

theorem cic_nonneg (x : ℚ) : 0 ≤ cic_weight x := by
  unfold cic_weight
  split_ifs with h
  · nlinarith
  · simp

theorem tsc_nonneg (x : ℚ) : 0 ≤ tsc_weight x := by
  rcases lt_or_le |x| (1/2) with h | h
  · rw [tsc_eval_lo h]
    have hs : x^2 = |x|^2 := (sq_abs x).symm
    nlinarith [abs_nonneg x]
  · rcases lt_or_le |x| (3/2) with h2 | h2
    · rw [tsc_eval_mid h h2]
      positivity
    · rw [tsc_eval_hi h2]

theorem pcs_nonneg (x : ℚ) : 0 ≤ pcs_weight x := by
  rcases lt_or_le |x| 1 with h | h
  · rw [pcs_eval_lo h]
    have hs : x^2 = |x|^2 := (sq_abs x).symm
    have ht0 : 0 ≤ |x| := abs_nonneg x
    have k1 : 0 ≤ 1 - |x| := by linarith
    have k2 : 0 ≤ |x| * (1 - |x|) := mul_nonneg ht0 k1
    have k3 : 0 ≤ (1 - |x|) * (1 + |x| * (1 - |x|)) := mul_nonneg k1 (by linarith)
    have key : 4 - 6*|x|^2 + 3*|x|^3 = 1 + 3*((1 - |x|) * (1 + |x| * (1 - |x|))) := by
      ring
    rw [hs]
    nlinarith [k3]
  · rcases lt_or_le |x| 2 with h2 | h2
    · rw [pcs_eval_mid h h2]
      have : (0:ℚ) ≤ (2 - |x|)^3 := pow_nonneg (by linarith) 3
      linarith
    · rw [pcs_eval_hi h2]

/-- Every kernel in the library is pointwise nonnegative. -/
theorem kernel_nonneg {wf : ℚ → ℚ}
    (h : wf ∈ [ngp_weight, ngp_errw_weight, cic_weight, tsc_weight, pcs_weight]) :
    ∀ x : ℚ, 0 ≤ wf x := by
  intro x
  simp only [List.mem_cons, List.not_mem_nil, or_false] at h
  rcases h with h | h | h | h | h
  · subst h
    exact ngp_nonneg x
  · subst h
    rw [ngp_errw_weight]
    exact ngp_nonneg x
  · subst h
    exact cic_nonneg x
  · subst h
    exact tsc_nonneg x
  · subst h
    exact pcs_nonneg x

/-- A list of nonnegative rationals has positive sum iff some element is
nonzero. -/
theorem list_sum_pos_iff {l : List ℚ} (h : ∀ x ∈ l, 0 ≤ x) :
    0 < l.sum ↔ ∃ x ∈ l, x ≠ 0 := by
  constructor
  · intro hpos
    by_contra hc
    push_neg at hc
    have : l.sum = 0 := List.sum_eq_zero hc
    rw [this] at hpos
    exact lt_irrefl 0 hpos
  · rintro ⟨x, hmem, hne⟩
    induction l with
    | nil => simp at hmem
    | cons a t ih =>
      simp only [List.sum_cons]
      rcases List.mem_cons.1 hmem with rfl | hmt
      · have h2 : 0 ≤ t.sum :=
          List.sum_nonneg (fun y hy => h y (List.mem_cons_of_mem _ hy))
        have h3 : 0 < x :=
          lt_of_le_of_ne (h x (List.mem_cons_self _ _)) (Ne.symm hne)
        linarith
      · have h2 : 0 < t.sum :=
          ih (fun y hy => h y (List.mem_cons_of_mem _ hy)) hmt
        have h3 : 0 ≤ a := h a (List.mem_cons_self _ _)
        linarith

/-- A filtered list is nonempty iff some element satisfies the
predicate. -/
theorem list_filter_length_pos_iff {α : Type} {l : List α} {p : α → Bool} :
    0 < (l.filter p).length ↔ ∃ x ∈ l, p x := by
  rw [List.length_pos]
  constructor
  · intro h
    obtain ⟨x, hx⟩ := List.exists_mem_of_ne_nil _ h
    exact ⟨x, (List.mem_filter.1 hx).1, (List.mem_filter.1 hx).2⟩
  · rintro ⟨x, hmem, hp⟩
    intro hc
    have hx : x ∈ l.filter p := List.mem_filter.2 ⟨hmem, hp⟩
    rw [hc] at hx
    simp at hx

/-- C10: for every kernel of the library, the assignment engine returns
pointwise nonnegative sum_weights and var_weights, and at every voxel the
accumulated weight is strictly positive exactly when the occupation count
is. -/
theorem attribute_weight_density_invariants (wf : ℚ → ℚ)
    (hwf : wf ∈ [ngp_weight, ngp_errw_weight, cic_weight, tsc_weight, pcs_weight])
    (gs : ℚ) (xobj yobj zobj xgrid ygrid zgrid : List ℚ) :
    (∀ v ∈ (attribute_weight_density gs xobj yobj zobj xgrid ygrid zgrid wf).1, 0 ≤ v)
    ∧ (∀ v ∈ (attribute_weight_density gs xobj yobj zobj xgrid ygrid zgrid wf).2.1, 0 ≤ v)
    ∧ (∀ (j : ℕ) (a : ℚ) (b : ℤ),
        (attribute_weight_density gs xobj yobj zobj xgrid ygrid zgrid wf).1[j]? = some a →
        (attribute_weight_density gs xobj yobj zobj xgrid ygrid zgrid wf).2.2[j]? = some b →
        (0 < a ↔ 0 < b)) := by
  have hk : ∀ x : ℚ, 0 ≤ wf x := kernel_nonneg hwf
  have hw3 : ∀ o gp, 0 ≤ weight3 wf gs o gp :=
    fun o gp => mul_nonneg (mul_nonneg (hk _) (hk _)) (hk _)
  simp only [attribute_weight_density]
  refine ⟨?_, ?_, ?_⟩
  · intro v hv
    obtain ⟨gp, _, rfl⟩ := List.mem_map.1 hv
    exact List.sum_nonneg (fun y hy => by
      obtain ⟨o, _, rfl⟩ := List.mem_map.1 hy
      exact hw3 o gp)
  · intro v hv
    obtain ⟨gp, _, rfl⟩ := List.mem_map.1 hv
    exact List.sum_nonneg (fun y hy => by
      obtain ⟨o, _, rfl⟩ := List.mem_map.1 hy
      exact sq_nonneg _)
  · intro j a b ha hb
    rw [List.getElem?_map] at ha hb
    obtain ⟨gp, hgp, hae⟩ := Option.map_eq_some'.1 ha
    obtain ⟨gp', hgp', hbe⟩ := Option.map_eq_some'.1 hb
    rw [hgp] at hgp'
    cases hgp'
    subst hae
    subst hbe
    constructor
    · intro hpos
      have hex := (list_sum_pos_iff (fun y hy => by
        obtain ⟨o, _, rfl⟩ := List.mem_map.1 hy
        exact hw3 o gp)).1 hpos
      obtain ⟨y, hy, hyne⟩ := hex
      obtain ⟨o, ho, rfl⟩ := List.mem_map.1 hy
      have hfil : 0 < ((xobj.zip (yobj.zip zobj)).filter
          (fun o => decide (weight3 wf gs o gp ≠ 0))).length :=
        list_filter_length_pos_iff.2 ⟨o, ho, by simpa using hyne⟩
      exact_mod_cast hfil
    · intro hpos
      have hfil : 0 < ((xobj.zip (yobj.zip zobj)).filter
          (fun o => decide (weight3 wf gs o gp ≠ 0))).length := by
        exact_mod_cast hpos
      obtain ⟨o, ho, hp⟩ := list_filter_length_pos_iff.1 hfil
      have hne : weight3 wf gs o gp ≠ 0 := by simpa using hp
      refine (list_sum_pos_iff (fun y hy => by
        obtain ⟨o', _, rfl⟩ := List.mem_map.1 hy
        exact hw3 o' gp)).2 ⟨weight3 wf gs o gp, List.mem_map.2 ⟨o, ho, rfl⟩, hne⟩

/-- C10 witness: the invariants instantiated for the CIC kernel on a
one-object, one-voxel configuration, with the hypotheses discharged; the
sum_weights array evaluates to [1] and positivity transfers to the
occupation count. -/
theorem attribute_weight_density_invariants_witness :
    (attribute_weight_density 1 [0] [0] [0] [0] [0] [0] cic_weight).1 = [1]
    ∧ ((0:ℚ) < 1 ↔ (0:ℤ) < 1) := by
  have h := attribute_weight_density_invariants cic_weight (by simp) 1
    [0] [0] [0] [0] [0] [0]
  have hv : (attribute_weight_density 1 [0] [0] [0] [0] [0] [0] cic_weight).1 = [1] := by
    simp only [attribute_weight_density, List.zip_cons_cons, List.zip_nil_right,
      List.map_cons, List.map_nil, List.sum_cons, List.sum_nil]
    norm_num [weight3, cic_weight]
  have hn : (attribute_weight_density 1 [0] [0] [0] [0] [0] [0] cic_weight).2.2 = [1] := by
    simp only [attribute_weight_density, List.zip_cons_cons, List.zip_nil_right]
    norm_num [weight3, cic_weight, List.filter]
  exact ⟨hv, h.2.2 0 1 1 (by rw [hv]; rfl) (by rw [hn]; rfl)⟩

/-! Length bookkeeping for the grid cutter. -/

theorem andMask_len {n : ℕ} {m l : List Bool} (hm : m.length = n)
    (hl : l.length = n) : (andMask m l).length = n := by
  simp [andMask, List.length_zipWith, hm, hl]

theorem critMask_len {α β : Type} {n : ℕ} {m : List Bool} {o : Option α}
    {arr : List β} {f : α → β → Bool} (hm : m.length = n)
    (harr : o.isSome → arr.length = n) : (critMask m o arr f).length = n := by
  cases o with
  | none => exact hm
  | some c =>
    exact andMask_len hm (by rw [List.length_map]; exact harr (by simp))

theorem nanMask_len {α : Type} {n : ℕ} {m : List Bool} {rm : Bool}
    {o : Option (List (FPx α))} (hm : m.length = n)
    (ho : ∀ d, o = some d → d.length = n) : (nanMask m rm o).length = n := by
  cases rm with
  | false => exact hm
  | true =>
    cases o with
    | none => exact hm
    | some d =>
      exact andMask_len hm (by rw [List.length_map]; exact ho d rfl)

/-- Boolean-mask indexing keeps exactly the rows whose mask bit is true. -/
theorem applyMask_length {α : Type} {m : List Bool} {l : List α}
    (h : m.length = l.length) : (applyMask m l).length = m.count true := by
  unfold applyMask
  induction m generalizing l with
  | nil => simp
  | cons b t ih =>
    cases l with
    | nil => simp at h
    | cons a s =>
      have h' : t.length = s.length := by simpa using h
      cases b <;>
        simp [List.zip_cons_cons, List.filterMap_cons, ih h', List.count_cons]

/-- The combined mask has one bit per voxel. -/
theorem cut_mask_length (g : Grid) (rm : Bool) (nc : Option ℤ)
    (wm : Option ℚ) (rmax xmx ymx zmx : Option ℚ) (n : ℕ)
    (hra : g.ra.length = n) (hrcom : g.rcom.length = n)
    (hx : g.x.length = n) (hy : g.y.length = n) (hz : g.z.length = n)
    (hnc : nc.isSome → (g.nincell.getD []).length = n)
    (hsw : wm.isSome → (g.sum_weights.getD []).length = n)
    (hd : ∀ d, g.density = some d → d.length = n)
    (hde : ∀ d, g.density_err = some d → d.length = n) :
    (cut_mask g rm nc wm rmax xmx ymx zmx).length = n := by
  unfold cut_mask
  refine nanMask_len (nanMask_len ?_ hd) hde
  refine critMask_len (critMask_len (critMask_len (critMask_len (critMask_len
    (critMask_len ?_ hnc) hsw) (fun _ => hrcom)) (fun _ => hx)) (fun _ => hy))
    (fun _ => hz)
  simp [hra]

/-- C5: after cut_grid on a grid whose per-voxel arrays all have length n
(and whose active criteria have their arrays present), every array of the
result is the original re-sliced by the one combined mask, the mask has
length n, and every retained array has length equal to the number of True
bits of the mask. -/
theorem cut_grid_alignment (g : Grid) (rm : Bool) (nc : Option ℤ)
    (wm : Option ℚ) (rmax xmx ymx zmx : Option ℚ) (n : ℕ)
    (hra : g.ra.length = n) (hdec : g.dec.length = n)
    (hrcom : g.rcom.length = n)
    (hx : g.x.length = n) (hy : g.y.length = n) (hz : g.z.length = n)
    (hsw : ∀ l, g.sum_weights = some l → l.length = n)
    (hvw : ∀ l, g.var_weights = some l → l.length = n)
    (hnc : ∀ l, g.nincell = some l → l.length = n)
    (hswr : ∀ l, g.sum_weights_random = some l → l.length = n)
    (hvwr : ∀ l, g.var_weights_random = some l → l.length = n)
    (hncr : ∀ l, g.nincell_random = some l → l.length = n)
    (hden : ∀ l, g.density = some l → l.length = n)
    (hde : ∀ l, g.density_err = some l → l.length = n)
    (hdn : ∀ l, g.density_nincell = some l → l.length = n)
    (hncA : nc.isSome → g.nincell.isSome)
    (hwmA : wm.isSome → g.sum_weights.isSome) :
    (cut_grid g rm nc wm rmax xmx ymx zmx
        = ⟨applyMask (cut_mask g rm nc wm rmax xmx ymx zmx) g.ra,
           applyMask (cut_mask g rm nc wm rmax xmx ymx zmx) g.dec,
           applyMask (cut_mask g rm nc wm rmax xmx ymx zmx) g.rcom,
           applyMask (cut_mask g rm nc wm rmax xmx ymx zmx) g.x,
           applyMask (cut_mask g rm nc wm rmax xmx ymx zmx) g.y,
           applyMask (cut_mask g rm nc wm rmax xmx ymx zmx) g.z,
           g.sum_weights.map (applyMask (cut_mask g rm nc wm rmax xmx ymx zmx)),
           g.var_weights.map (applyMask (cut_mask g rm nc wm rmax xmx ymx zmx)),
           g.nincell.map (applyMask (cut_mask g rm nc wm rmax xmx ymx zmx)),
           g.sum_weights_random.map (applyMask (cut_mask g rm nc wm rmax xmx ymx zmx)),
           g.var_weights_random.map (applyMask (cut_mask g rm nc wm rmax xmx ymx zmx)),
           g.nincell_random.map (applyMask (cut_mask g rm nc wm rmax xmx ymx zmx)),
           g.density.map (applyMask (cut_mask g rm nc wm rmax xmx ymx zmx)),
           g.density_err.map (applyMask (cut_mask g rm nc wm rmax xmx ymx zmx)),
           g.density_nincell.map (applyMask (cut_mask g rm nc wm rmax xmx ymx zmx))⟩)
    ∧ (cut_mask g rm nc wm rmax xmx ymx zmx).length = n
    ∧ ((cut_grid g rm nc wm rmax xmx ymx zmx).ra.length
        = (cut_mask g rm nc wm rmax xmx ymx zmx).count true)
    ∧ ((cut_grid g rm nc wm rmax xmx ymx zmx).dec.length
        = (cut_mask g rm nc wm rmax xmx ymx zmx).count true)
    ∧ ((cut_grid g rm nc wm rmax xmx ymx zmx).rcom.length
        = (cut_mask g rm nc wm rmax xmx ymx zmx).count true)
    ∧ ((cut_grid g rm nc wm rmax xmx ymx zmx).x.length
        = (cut_mask g rm nc wm rmax xmx ymx zmx).count true)
    ∧ ((cut_grid g rm nc wm rmax xmx ymx zmx).y.length
        = (cut_mask g rm nc wm rmax xmx ymx zmx).count true)
    ∧ ((cut_grid g rm nc wm rmax xmx ymx zmx).z.length
        = (cut_mask g rm nc wm rmax xmx ymx zmx).count true)
    ∧ (∀ l, (cut_grid g rm nc wm rmax xmx ymx zmx).sum_weights = some l →
        l.length = (cut_mask g rm nc wm rmax xmx ymx zmx).count true)
    ∧ (∀ l, (cut_grid g rm nc wm rmax xmx ymx zmx).var_weights = some l →
        l.length = (cut_mask g rm nc wm rmax xmx ymx zmx).count true)
    ∧ (∀ l, (cut_grid g rm nc wm rmax xmx ymx zmx).nincell = some l →
        l.length = (cut_mask g rm nc wm rmax xmx ymx zmx).count true)
    ∧ (∀ l, (cut_grid g rm nc wm rmax xmx ymx zmx).sum_weights_random = some l →
        l.length = (cut_mask g rm nc wm rmax xmx ymx zmx).count true)
    ∧ (∀ l, (cut_grid g rm nc wm rmax xmx ymx zmx).var_weights_random = some l →
        l.length = (cut_mask g rm nc wm rmax xmx ymx zmx).count true)
    ∧ (∀ l, (cut_grid g rm nc wm rmax xmx ymx zmx).nincell_random = some l →
        l.length = (cut_mask g rm nc wm rmax xmx ymx zmx).count true)
    ∧ (∀ l, (cut_grid g rm nc wm rmax xmx ymx zmx).density = some l →
        l.length = (cut_mask g rm nc wm rmax xmx ymx zmx).count true)
    ∧ (∀ l, (cut_grid g rm nc wm rmax xmx ymx zmx).density_err = some l →
        l.length = (cut_mask g rm nc wm rmax xmx ymx zmx).count true)
    ∧ (∀ l, (cut_grid g rm nc wm rmax xmx ymx zmx).density_nincell = some l →
        l.length = (cut_mask g rm nc wm rmax xmx ymx zmx).count true) := by
  have hmask : (cut_mask g rm nc wm rmax xmx ymx zmx).length = n := by
    refine cut_mask_length g rm nc wm rmax xmx ymx zmx n hra hrcom hx hy hz ?_ ?_ hden hde
    · intro hs
      obtain ⟨l, hl⟩ := Option.isSome_iff_exists.1 (hncA hs)
      rw [hl]
      exact hnc l hl
    · intro hs
      obtain ⟨l, hl⟩ := Option.isSome_iff_exists.1 (hwmA hs)
      rw [hl]
      exact hsw l hl
  have hopt : ∀ {β : Type} (o : Option (List β)),
      (∀ l, o = some l → l.length = n) →
      ∀ l, o.map (applyMask (cut_mask g rm nc wm rmax xmx ymx zmx)) = some l →
        l.length = (cut_mask g rm nc wm rmax xmx ymx zmx).count true := by
    intro β o ho l hl
    obtain ⟨l0, hl0, rfl⟩ := Option.map_eq_some'.1 hl
    exact applyMask_length (by rw [hmask, ho l0 hl0])
  refine ⟨rfl, hmask, ?_, ?_, ?_, ?_, ?_, ?_, hopt _ hsw, hopt _ hvw, hopt _ hnc,
    hopt _ hswr, hopt _ hvwr, hopt _ hncr, hopt _ hden, hopt _ hde, hopt _ hdn⟩
  · exact applyMask_length (by rw [hmask, hra])
  · exact applyMask_length (by rw [hmask, hdec])
  · exact applyMask_length (by rw [hmask, hrcom])
  · exact applyMask_length (by rw [hmask, hx])
  · exact applyMask_length (by rw [hmask, hy])
  · exact applyMask_length (by rw [hmask, hz])

/-- A fully populated two-voxel grid used by the C5 witness. -/
noncomputable def gridFull : Grid :=
  ⟨[0, 0], [0, 0], [1, 2], [1, 2], [0, 0], [0, 0],
   some [1, 1], some [1, 1], some [1, 1],
   some [0, 1], some [0, 1], some [0, 1],
   some [FPx.nan, FPx.fin 0], some [FPx.inf, FPx.fin 1],
   some [FPx.nan, FPx.fin 0]⟩

/-- C5 witness: the alignment theorem instantiated on gridFull with the
n_cut criterion active and NaN removal on, all hypotheses discharged. -/
theorem cut_grid_alignment_witness :
    (cut_mask gridFull true (some 0) none none none none none).length = 2
    ∧ ((cut_grid gridFull true (some 0) none none none none none).ra.length
        = (cut_mask gridFull true (some 0) none none none none none).count true)
    ∧ (∀ l, (cut_grid gridFull true (some 0) none none none none none).density = some l →
        l.length = (cut_mask gridFull true (some 0) none none none none none).count true) := by
  have h := cut_grid_alignment gridFull true (some 0) none none none none none 2
    rfl rfl rfl rfl rfl rfl
    (fun l hl => by cases hl; rfl) (fun l hl => by cases hl; rfl)
    (fun l hl => by cases hl; rfl) (fun l hl => by cases hl; rfl)
    (fun l hl => by cases hl; rfl) (fun l hl => by cases hl; rfl)
    (fun l hl => by cases hl; rfl) (fun l hl => by cases hl; rfl)
    (fun l hl => by cases hl; rfl)
    (fun _ => rfl) (fun hs => by simp at hs)
  exact ⟨h.2.1, h.2.2.1, h.2.2.2.2.2.2.2.2.2.2.2.2.2.2.1⟩

/-! Pointwise facts about the FP (IEEE-style) arithmetic of the density
normalisation. -/

theorem FP_div_fin_fin {a b : ℚ} (hb : b ≠ 0) :
    FP.div (FPx.fin a) (FPx.fin b) = FPx.fin (a / b) := by
  simp only [FP.div]
  rw [if_neg hb]

theorem FP_div_fin_zero_pos {a : ℚ} (ha : 0 < a) :
    FP.div (FPx.fin a) (FPx.fin 0) = FPx.inf := by
  simp [FP.div, ne_of_gt ha, ha]

theorem FP_div_zero_zero : FP.div (FPx.fin 0) (FPx.fin 0) = FPx.nan := by
  simp [FP.div]

theorem FP_sub_fin_fin (a b : ℚ) :
    FP.sub (FPx.fin a) (FPx.fin b) = FPx.fin (a - b) := rfl

theorem FP_sub_inf_fin (b : ℚ) : FP.sub FPx.inf (FPx.fin b) = FPx.inf := rfl

theorem FP_sub_nan (y : FP) : FP.sub FPx.nan y = FPx.nan := by
  cases y <;> rfl

theorem fpSqrt_inf : fpSqrt FPx.inf = FPx.inf := rfl

theorem fpSqrt_fin_nonneg {q : ℚ} (h : 0 ≤ q) :
    fpSqrt (FPx.fin q) = FPx.fin (Real.sqrt (q : ℝ)) := by
  simp only [fpSqrt]
  rw [if_neg (not_lt.2 h)]

/-- The density array at an index where both denominators are nonzero:
the exact ratio formula of the specification. -/
theorem densityArr_get {sw swr : List ℚ} {j : ℕ} {a b : ℚ}
    (ha : sw[j]? = some a) (hb : swr[j]? = some b) (hS : sw.sum ≠ 0)
    (hSr : swr.sum ≠ 0) (hbne : b ≠ 0) :
    (densityArr sw swr)[j]? = some (FPx.fin ((a / sw.sum) / (b / swr.sum) - 1)) := by
  unfold densityArr
  rw [List.getElem?_zipWith', ha, hb]
  simp only [Option.map_some', Option.some_bind]
  rw [FP_div_fin_fin hS, FP_div_fin_fin hSr,
    FP_div_fin_fin (div_ne_zero hbne hSr), FP_sub_fin_fin]

/-- The occupation-count density array at an index where both denominators
are nonzero. -/
theorem densityNincellArr_get {nc ncr : List ℤ} {j : ℕ} {a b : ℤ}
    (ha : nc[j]? = some a) (hb : ncr[j]? = some b) (hS : nc.sum ≠ 0)
    (hSr : ncr.sum ≠ 0) (hbne : b ≠ 0) :
    (densityNincellArr nc ncr)[j]?
      = some (FPx.fin (((a:ℚ) / ((nc.sum : ℤ) : ℚ)) / ((b:ℚ) / ((ncr.sum : ℤ) : ℚ)) - 1)) := by
  unfold densityNincellArr
  rw [List.getElem?_zipWith', ha, hb]
  simp only [Option.map_some', Option.some_bind]
  have hSq : ((nc.sum : ℤ) : ℚ) ≠ 0 := Int.cast_ne_zero.2 hS
  have hSrq : ((ncr.sum : ℤ) : ℚ) ≠ 0 := Int.cast_ne_zero.2 hSr
  have hbq : ((b:ℤ) : ℚ) ≠ 0 := Int.cast_ne_zero.2 hbne
  rw [FP_div_fin_fin hSq, FP_div_fin_fin hSrq,
    FP_div_fin_fin (div_ne_zero hbq hSrq), FP_sub_fin_fin]

/-- The density-error array at an index with a positive random count:
exactly sqrt(Nrandom / count) in real arithmetic. -/
theorem densityErrArr_get {Nr : ℕ} {ncr : List ℤ} {j : ℕ} {b : ℤ}
    (hb : ncr[j]? = some b) (hbp : 0 < b) :
    (densityErrArr Nr ncr)[j]? = some (FPx.fin (Real.sqrt ((Nr : ℝ) / (b : ℝ)))) := by
  unfold densityErrArr
  rw [List.getElem?_map, hb]
  simp only [Option.map_some']
  have hbq : ((b:ℤ) : ℚ) ≠ 0 := Int.cast_ne_zero.2 (ne_of_gt hbp)
  rw [FP_div_fin_fin hbq]
  rw [fpSqrt_fin_nonneg (div_nonneg (by positivity) (by exact_mod_cast le_of_lt hbp))]
  congr 2
  push_cast
  ring

/-- body of grid_data_density after validation, on a recognised
random_method: the success form with all density fields set. -/
theorem checked_ok_form (cosF sinF : ℚ → ℚ) (g : Grid) (gs : ℚ)
    (ra dec rcom : List ℚ) (k : String) (Nr : ℕ) (rm : String)
    (rnd : List (ℚ × ℚ × ℚ))
    (hdisp : rm = "choice" ∨ rm = "healpix" ∨ rm = "cartesian") :
    grid_data_density_checked cosF sinF g gs ra dec rcom k true Nr rm rnd
      = Except.ok (((g.withAssign (dataAssign cosF sinF g gs ra dec rcom k).1
          (dataAssign cosF sinF g gs ra dec rcom k).2.1
          (dataAssign cosF sinF g gs ra dec rcom k).2.2).withRandomDensity
          (randAssign cosF sinF g gs rnd k).1
          (randAssign cosF sinF g gs rnd k).2.1
          (randAssign cosF sinF g gs rnd k).2.2
          (densityArr (dataAssign cosF sinF g gs ra dec rcom k).1
            (randAssign cosF sinF g gs rnd k).1)
          (densityErrArr Nr (randAssign cosF sinF g gs rnd k).2.2)
          (densityNincellArr (dataAssign cosF sinF g gs ra dec rcom k).2.2
            (randAssign cosF sinF g gs rnd k).2.2))) := by
  unfold grid_data_density_checked
  rw [if_pos rfl, if_pos hdisp]

/-- body of grid_data_density after validation, on an unrecognised
random_method: the fall-through NameError. -/
theorem checked_err_form (cosF sinF : ℚ → ℚ) (g : Grid) (gs : ℚ)
    (ra dec rcom : List ℚ) (k : String) (Nr : ℕ) (rm : String)
    (rnd : List (ℚ × ℚ × ℚ))
    (hdisp : ¬(rm = "choice" ∨ rm = "healpix" ∨ rm = "cartesian")) :
    grid_data_density_checked cosF sinF g gs ra dec rcom k true Nr rm rnd
      = Except.error (PyError.nameError "xobj_random") := by
  unfold grid_data_density_checked
  rw [if_pos rfl, if_neg hdisp]

/-- grid_data_density_core on a valid (lowercased) kind reduces to the
checked body at that kind. -/
theorem core_eq_checked (cosF sinF : ℚ → ℚ) (g : Grid) (gs : ℚ)
    (ra dec rcom : List ℚ) (kind : String) (cd : Bool) (Nr : ℕ) (rm : String)
    (rnd : List (ℚ × ℚ × ℚ)) (h : pyLower kind ∈ _GRID_KIND) :
    grid_data_density_core cosF sinF g gs ra dec rcom kind cd Nr rm rnd
      = grid_data_density_checked cosF sinF g gs ra dec rcom (pyLower kind) cd
          Nr rm rnd := by
  unfold grid_data_density_core
  rw [if_pos h]

/-- grid_data_density_core on an invalid kind raises the ValueError whose
argument is the generator expression. -/
theorem core_invalid_kind (cosF sinF : ℚ → ℚ) (g : Grid) (gs : ℚ)
    (ra dec rcom : List ℚ) (kind : String) (cd : Bool) (Nr : ℕ) (rm : String)
    (rnd : List (ℚ × ℚ × ℚ)) (h : pyLower kind ∉ _GRID_KIND) :
    grid_data_density_core cosF sinF g gs ra dec rcom kind cd Nr rm rnd
      = Except.error (PyError.valueError ValueErrorArg.genExpr) := by
  unfold grid_data_density_core
  rw [if_neg h]

/-- C1: a successful compute_density run of grid_data_density (before its
final cut) sets density, density_err and density_nincell to exactly the
ratio formulas over the data and random assignment arrays; and at every
voxel where the denominators are nonzero those formulas evaluate to the
exact arithmetic values of the specification:
density = (sw/Σsw)/(swr/Σswr) - 1, density_err = sqrt(Nrandom/nincell_r),
and density_nincell is the same ratio with occupation counts. -/
theorem grid_data_density_sets_density_fields (cosF sinF : ℚ → ℚ) (g : Grid)
    (gs : ℚ) (ra dec rcom : List ℚ) (kind : String) (Nr : ℕ) (rm : String)
    (rnd : List (ℚ × ℚ × ℚ)) (g2 : Grid)
    (hok : grid_data_density_core cosF sinF g gs ra dec rcom kind true Nr rm rnd
      = Except.ok g2) :
    (g2.density = some (densityArr (dataAssign cosF sinF g gs ra dec rcom (pyLower kind)).1
        (randAssign cosF sinF g gs rnd (pyLower kind)).1)
      ∧ g2.density_err = some (densityErrArr Nr
          (randAssign cosF sinF g gs rnd (pyLower kind)).2.2)
      ∧ g2.density_nincell = some (densityNincellArr
          (dataAssign cosF sinF g gs ra dec rcom (pyLower kind)).2.2
          (randAssign cosF sinF g gs rnd (pyLower kind)).2.2))
    ∧ (∀ (sw swr : List ℚ) (j : ℕ) (a b : ℚ), sw[j]? = some a → swr[j]? = some b →
        sw.sum ≠ 0 → swr.sum ≠ 0 → b ≠ 0 →
        (densityArr sw swr)[j]? = some (FPx.fin ((a / sw.sum) / (b / swr.sum) - 1)))
    ∧ (∀ (nc ncr : List ℤ) (j : ℕ) (a b : ℤ), nc[j]? = some a → ncr[j]? = some b →
        nc.sum ≠ 0 → ncr.sum ≠ 0 → b ≠ 0 →
        (densityNincellArr nc ncr)[j]?
          = some (FPx.fin (((a:ℚ) / ((nc.sum : ℤ) : ℚ)) / ((b:ℚ) / ((ncr.sum : ℤ) : ℚ)) - 1)))
    ∧ (∀ (ncr : List ℤ) (j : ℕ) (b : ℤ), ncr[j]? = some b → 0 < b →
        (densityErrArr Nr ncr)[j]? = some (FPx.fin (Real.sqrt ((Nr : ℝ) / (b : ℝ))))) := by
  refine ⟨?_, fun sw swr j a b ha hb hS hSr hbne => densityArr_get ha hb hS hSr hbne,
    fun nc ncr j a b ha hb hS hSr hbne => densityNincellArr_get ha hb hS hSr hbne,
    fun ncr j b hb hbp => densityErrArr_get hb hbp⟩
  by_cases hk : pyLower kind ∈ _GRID_KIND
  · rw [core_eq_checked cosF sinF g gs ra dec rcom kind true Nr rm rnd hk] at hok
    by_cases hdisp : rm = "choice" ∨ rm = "healpix" ∨ rm = "cartesian"
    · rw [checked_ok_form cosF sinF g gs ra dec rcom (pyLower kind) Nr rm rnd hdisp] at hok
      cases hok
      exact ⟨rfl, rfl, rfl⟩
    · rw [checked_err_form cosF sinF g gs ra dec rcom (pyLower kind) Nr rm rnd hdisp] at hok
      cases hok
  · rw [core_invalid_kind cosF sinF g gs ra dec rcom kind true Nr rm rnd hk] at hok
    cases hok

/-- C7 (amended): at a voxel whose random-catalog denominators are zero,
the density normalisation propagates IEEE special values instead of
raising: density becomes NaN when the voxel's own data weight-sum is zero
(0/0) and +inf when it is positive (positive/0); density_err becomes +inf
(sqrt(Nrandom/0)).  The NaN-removal criterion of the subsequent cut (which
tests np.isnan) therefore flags exactly the NaN voxels: an inf voxel is
not flagged and survives the cut. -/
theorem zero_denominator_propagation (sw swr : List ℚ) (ncr : List ℤ)
    (Nr : ℕ) (j : ℕ) (a : ℚ)
    (ha : sw[j]? = some a) (hb : swr[j]? = some 0) (hc : ncr[j]? = some 0)
    (hS : 0 < sw.sum) (hSr : swr.sum ≠ 0) (hNr : 0 < Nr) (hann : 0 ≤ a) :
    (densityArr sw swr)[j]? = some (if a = 0 then FPx.nan else FPx.inf)
    ∧ (densityErrArr Nr ncr)[j]? = some FPx.inf
    ∧ ((densityArr sw swr).map FPx.isnan)[j]? = some (decide (a = 0))
    ∧ ((densityErrArr Nr ncr).map FPx.isnan)[j]? = some false := by
  have hd : (densityArr sw swr)[j]? = some (if a = 0 then FPx.nan else FPx.inf) := by
    unfold densityArr
    rw [List.getElem?_zipWith', ha, hb]
    simp only [Option.map_some', Option.some_bind]
    rw [FP_div_fin_fin (ne_of_gt hS), FP_div_fin_fin hSr, zero_div]
    by_cases ha0 : a = 0
    · rw [if_pos ha0, ha0, zero_div, FP_div_zero_zero, FP_sub_nan]
    · rw [if_neg ha0]
      have hpos : 0 < a / sw.sum :=
        div_pos (lt_of_le_of_ne hann (Ne.symm ha0)) hS
      rw [FP_div_fin_zero_pos hpos, FP_sub_inf_fin]
  have he : (densityErrArr Nr ncr)[j]? = some FPx.inf := by
    unfold densityErrArr
    rw [List.getElem?_map, hc]
    simp only [Option.map_some', Int.cast_zero]
    have hNq : (0:ℚ) < (Nr : ℚ) := by exact_mod_cast hNr
    rw [FP_div_fin_zero_pos hNq, fpSqrt_inf]
  refine ⟨hd, he, ?_, ?_⟩
  · rw [List.getElem?_map, hd]
    by_cases ha0 : a = 0 <;> simp [ha0, FPx.isnan]
  · rw [List.getElem?_map, he]
    simp [FPx.isnan]

/-- C4 (amended): for a random_method outside {choice, healpix,
cartesian}, both grid_data_density (with compute_density) and
grid_data_density_pypower raise a NameError on the unbound local
xobj_random — the dispatch has no else-branch — rather than an
invalid-configuration ValueError enumerating the valid strategies. -/
theorem unknown_random_method_raises_nameerror (cosF sinF : ℚ → ℚ) (g : Grid)
    (gs : ℚ) (ra dec rcom : List ℚ) (kind : String) (n_cut : Option ℤ)
    (weight_min : Option ℚ) (Nr : ℕ) (rm : String) (rnd : List (ℚ × ℚ × ℚ))
    (raobj decobj rcomobj : List ℚ) (rmax gs2 : ℚ) (gt kind2 : String) (Nr2 : ℕ)
    (hk : pyLower kind ∈ _GRID_KIND)
    (hrm : ¬(rm = "choice" ∨ rm = "healpix" ∨ rm = "cartesian")) :
    grid_data_density cosF sinF g gs ra dec rcom kind n_cut weight_min true Nr rm rnd
      = Except.error (PyError.nameError "xobj_random")
    ∧ grid_data_density_pypower cosF sinF raobj decobj rcomobj rmax gs2 gt kind2 Nr2 rm rnd
      = Except.error (PyError.nameError "xobj_random")
    ∧ exceptIsValueError
        (Except.error (PyError.nameError "xobj_random") : Except PyError Grid) = false := by
  refine ⟨?_, ?_, rfl⟩
  · unfold grid_data_density
    rw [core_eq_checked cosF sinF g gs ra dec rcom kind true Nr rm rnd hk,
      checked_err_form cosF sinF g gs ra dec rcom (pyLower kind) Nr rm rnd hrm]
    rfl
  · unfold grid_data_density_pypower
    rw [if_neg hrm]

/-- C4 counterexample: a concrete run with random_method = "bogus" raises
the NameError on xobj_random — not a ValueError — so the promised
fail-fast invalid-configuration error enumerating the valid strategy
names does not happen. -/
theorem random_method_bogus_not_config_error :
    grid_data_density cosAtZero sinAtZero gridEx1 1 [0] [0] [1] "ngp"
        none none true 100 "bogus" []
      = Except.error (PyError.nameError "xobj_random")
    ∧ exceptIsValueError (grid_data_density cosAtZero sinAtZero gridEx1 1 [0] [0] [1]
        "ngp" none none true 100 "bogus" []) = false := by
  constructor
  · unfold grid_data_density
    rw [core_eq_checked cosAtZero sinAtZero gridEx1 1 [0] [0] [1] "ngp" true 100
        "bogus" [] (by decide),
      checked_err_form cosAtZero sinAtZero gridEx1 1 [0] [0] [1] (pyLower "ngp") 100
        "bogus" [] (by decide)]
    rfl
  · unfold grid_data_density
    rw [core_eq_checked cosAtZero sinAtZero gridEx1 1 [0] [0] [1] "ngp" true 100
        "bogus" [] (by decide),
      checked_err_form cosAtZero sinAtZero gridEx1 1 [0] [0] [1] (pyLower "ngp") 100
        "bogus" [] (by decide)]
    rfl

/-- C4 witness: the amended NameError theorem at concrete inputs with the
hypotheses (valid kernel, unrecognised strategy "bogus") discharged. -/
theorem unknown_random_method_witness :
    grid_data_density cosAtZero sinAtZero gridEx1 1 [0] [0] [1] "cic"
        none none true 100 "uniform" []
      = Except.error (PyError.nameError "xobj_random")
    ∧ grid_data_density_pypower cosAtZero sinAtZero [0] [0] [1] 10 1 "rect" "cic"
        10 "uniform" []
      = Except.error (PyError.nameError "xobj_random") := by
  have h := unknown_random_method_raises_nameerror cosAtZero sinAtZero gridEx1 1
    [0] [0] [1] "cic" none none 100 "uniform" [] [0] [0] [1] 10 1 "rect" "cic" 10
    (by decide) (by decide)
  exact ⟨h.1, h.2.1⟩

/-- C6 (code bug in grid_data_density): for the invalid kernel name
"bogus", compute_grid_window raises ValueError with the proper message
enumerating the allowed kinds, but grid_data_density passes a generator
expression — not a string — to ValueError (a missing join), so its
message is an opaque generator repr that enumerates nothing. -/
theorem invalid_kernel_error_divergence :
    grid_data_density cosAtZero sinAtZero gridEx1 1 [0] [0] [1] "bogus"
        none none true 100 "cartesian" []
      = Except.error (PyError.valueError ValueErrorArg.genExpr)
    ∧ compute_grid_window 0 [0] "bogus" 1000
      = Except.error (PyError.valueError (ValueErrorArg.str gridKindMsg))
    ∧ ValueErrorArg.genExpr ≠ ValueErrorArg.str gridKindMsg := by
  refine ⟨?_, ?_, by decide⟩
  · unfold grid_data_density
    rw [core_invalid_kind cosAtZero sinAtZero gridEx1 1 [0] [0] [1] "bogus" true 100
        "cartesian" [] (by decide)]
    rfl
  · unfold compute_grid_window
    rw [if_neg (by decide)]

/-- C8 (amended): grid_data_density lowercases the kernel name before
validating, so any casing whose lowercase form is a valid kind is
accepted and dispatches to the lowercased kernel; the five canonical
names are lowercase fixed points; but compute_grid_window does NOT
lowercase — every name outside the exact lowercase set, including "NGP",
is rejected there with the enumerating ValueError. -/
theorem kernel_name_case_handling (cosF sinF : ℚ → ℚ) (g : Grid) (gs : ℚ)
    (ra dec rcom : List ℚ) (cd : Bool) (Nr : ℕ) (rm : String)
    (rnd : List (ℚ × ℚ × ℚ)) (gsw : ℝ) (kh : List ℝ) (n : ℕ) :
    (∀ kind : String, pyLower kind ∈ _GRID_KIND →
      grid_data_density_core cosF sinF g gs ra dec rcom kind cd Nr rm rnd
        = grid_data_density_checked cosF sinF g gs ra dec rcom (pyLower kind) cd
            Nr rm rnd)
    ∧ (∀ s ∈ _GRID_KIND, pyLower s = s)
    ∧ (∀ s : String, s ∉ _GRID_KIND →
        compute_grid_window gsw kh s n
          = Except.error (PyError.valueError (ValueErrorArg.str gridKindMsg))) := by
  refine ⟨fun kind hk =>
    core_eq_checked cosF sinF g gs ra dec rcom kind cd Nr rm rnd hk, by decide, ?_⟩
  intro s hs
  unfold compute_grid_window
  rw [if_neg hs]

/-- C8 counterexample: compute_grid_window rejects the uppercase name
"NGP" with the invalid-kind ValueError while accepting "ngp" (returning
None at grid size 0), so kernel-name selection is not case-insensitive in
the window-function entry point. -/
theorem compute_grid_window_case_sensitive :
    compute_grid_window 0 [0] "NGP" 1000
      = Except.error (PyError.valueError (ValueErrorArg.str gridKindMsg))
    ∧ compute_grid_window 0 [0] "ngp" 1000 = Except.ok none := by
  constructor
  · unfold compute_grid_window
    rw [if_neg (by decide)]
  · unfold compute_grid_window
    rw [if_pos (by decide), if_pos rfl]

/-- C8 witness: the case-handling theorem instantiated at the name "NGP"
(lowercased to "ngp" and accepted by grid_data_density) and at the window
path (where "NGP" is rejected). -/
theorem kernel_name_case_handling_witness :
    grid_data_density_core cosAtZero sinAtZero gridEx1 1 [0] [0] [1] "NGP"
        true 100 "cartesian" []
      = grid_data_density_checked cosAtZero sinAtZero gridEx1 1 [0] [0] [1] "ngp"
          true 100 "cartesian" []
    ∧ compute_grid_window 1 [0] "NGP" 3
      = Except.error (PyError.valueError (ValueErrorArg.str gridKindMsg)) := by
  have h := kernel_name_case_handling cosAtZero sinAtZero gridEx1 1 [0] [0] [1]
    true 100 "cartesian" [] 1 [0] 3
  exact ⟨h.1 "NGP" (by decide), h.2.2 "NGP" (by decide)⟩

/-- C1 witness: a one-object, one-voxel, one-random run of the core with
the success hypothesis discharged by computation: the returned grid's
density field is the ratio-formula array, and the pointwise exact formula
is evaluated at voxel 0 of the one-voxel arrays. -/
theorem grid_data_density_sets_density_fields_witness :
    okDensity (grid_data_density_core cosAtZero sinAtZero gridEx1 1 [0] [0] [1] "ngp"
        true 100 "cartesian" [(1, 0, 0)])
      = some (some (densityArr
          (dataAssign cosAtZero sinAtZero gridEx1 1 [0] [0] [1] (pyLower "ngp")).1
          (randAssign cosAtZero sinAtZero gridEx1 1 [(1, 0, 0)] (pyLower "ngp")).1))
    ∧ (densityArr [1] [1])[0]?
        = some (FPx.fin ((1 / ([1] : List ℚ).sum) / (1 / ([1] : List ℚ).sum) - 1)) := by
  have hok : grid_data_density_core cosAtZero sinAtZero gridEx1 1 [0] [0] [1] "ngp"
      true 100 "cartesian" [(1, 0, 0)]
      = Except.ok (((gridEx1.withAssign
          (dataAssign cosAtZero sinAtZero gridEx1 1 [0] [0] [1] (pyLower "ngp")).1
          (dataAssign cosAtZero sinAtZero gridEx1 1 [0] [0] [1] (pyLower "ngp")).2.1
          (dataAssign cosAtZero sinAtZero gridEx1 1 [0] [0] [1] (pyLower "ngp")).2.2).withRandomDensity
          (randAssign cosAtZero sinAtZero gridEx1 1 [(1, 0, 0)] (pyLower "ngp")).1
          (randAssign cosAtZero sinAtZero gridEx1 1 [(1, 0, 0)] (pyLower "ngp")).2.1
          (randAssign cosAtZero sinAtZero gridEx1 1 [(1, 0, 0)] (pyLower "ngp")).2.2
          (densityArr
            (dataAssign cosAtZero sinAtZero gridEx1 1 [0] [0] [1] (pyLower "ngp")).1
            (randAssign cosAtZero sinAtZero gridEx1 1 [(1, 0, 0)] (pyLower "ngp")).1)
          (densityErrArr 100
            (randAssign cosAtZero sinAtZero gridEx1 1 [(1, 0, 0)] (pyLower "ngp")).2.2)
          (densityNincellArr
            (dataAssign cosAtZero sinAtZero gridEx1 1 [0] [0] [1] (pyLower "ngp")).2.2
            (randAssign cosAtZero sinAtZero gridEx1 1 [(1, 0, 0)] (pyLower "ngp")).2.2))) :=
    (core_eq_checked cosAtZero sinAtZero gridEx1 1 [0] [0] [1] "ngp" true 100
      "cartesian" [(1, 0, 0)] (by decide)).trans
    (checked_ok_form cosAtZero sinAtZero gridEx1 1 [0] [0] [1] (pyLower "ngp") 100
      "cartesian" [(1, 0, 0)] (Or.inr (Or.inr rfl)))
  have h := grid_data_density_sets_density_fields cosAtZero sinAtZero gridEx1 1
    [0] [0] [1] "ngp" 100 "cartesian" [(1, 0, 0)] _ hok
  refine ⟨?_, h.2.1 [1] [1] 0 1 1 rfl rfl (by simp) (by simp) (by norm_num)⟩
  rw [hok]
  simp only [okDensity]
  rw [h.1.1]

/-- C7 witness: the propagation theorem instantiated at a voxel with data
weight-sum 1 and zero random weight-sum/count: its density and
density_err are +inf and the NaN criterion does not flag it. -/
theorem zero_denominator_propagation_witness :
    (densityArr [1, 1] [0, 1])[0]? = some FPx.inf
    ∧ (densityErrArr 100 [0, 1])[0]? = some FPx.inf
    ∧ ((densityArr [1, 1] [0, 1]).map FPx.isnan)[0]? = some false
    ∧ ((densityErrArr 100 [0, 1]).map FPx.isnan)[0]? = some false := by
  have h := zero_denominator_propagation [1, 1] [0, 1] [0, 1] 100 0 1 rfl rfl rfl
    (by norm_num [List.sum_cons, List.sum_nil])
    (by norm_num [List.sum_cons, List.sum_nil]) (by norm_num) (by norm_num)
  have h1 := h.1
  rw [if_neg (by norm_num : (1:ℚ) ≠ 0)] at h1
  have h3 := h.2.2.1
  rw [show (decide ((1:ℚ) = 0)) = false from by norm_num] at h3
  exact ⟨h1, h.2.1, h3, h.2.2.2⟩

/-- C7 counterexample: a concrete compute_density run in which voxel 0
has data weight-sum 1 but random weight-sum 0 and random count 0 (a zero
denominator).  Its density evaluates to +inf and its density_err to +inf,
neither of which is NaN, so the NaN-removal cut performed by
grid_data_density retains the voxel: both voxels survive (ra keeps length
2) and the returned density field still contains the infinity. -/
theorem zero_denominator_voxel_survives :
    okDensity (grid_data_density cosAtZero sinAtZero gridEx2 1 [0, 0] [0, 0] [1, 2]
        "ngp" none none true 100 "cartesian" [(2, 0, 0)])
      = some (some [FPx.inf, FPx.fin (-(1/2))])
    ∧ okRaLen (grid_data_density cosAtZero sinAtZero gridEx2 1 [0, 0] [0, 0] [1, 2]
        "ngp" none none true 100 "cartesian" [(2, 0, 0)])
      = some 2
    ∧ (randAssign cosAtZero sinAtZero gridEx2 1 [(2, 0, 0)] "ngp").1 = [0, 1]
    ∧ (randAssign cosAtZero sinAtZero gridEx2 1 [(2, 0, 0)] "ngp").2.2 = [0, 1] := by
  have hpl : pyLower "ngp" = "ngp" := by decide
  have hA : dataAssign cosAtZero sinAtZero gridEx2 1 [0, 0] [0, 0] [1, 2] "ngp"
      = ([1, 1], [1, 1], [1, 1]) := by
    norm_num [dataAssign, radec2cart, zip3With, attribute_weight_density, weight3,
      kernel_of, cosAtZero, sinAtZero, gridEx2, ngp_weight, List.zip, List.zipWith,
      List.filter, abs_zero, abs_one, abs_neg]
  have hR : randAssign cosAtZero sinAtZero gridEx2 1 [(2, 0, 0)] "ngp"
      = ([0, 1], [0, 1], [0, 1]) := by
    norm_num [randAssign, radec2cart, zip3With, attribute_weight_density, weight3,
      kernel_of, cosAtZero, sinAtZero, gridEx2, ngp_weight, List.zip, List.zipWith,
      List.filter, abs_zero, abs_one, abs_neg]
  have hA1 : (dataAssign cosAtZero sinAtZero gridEx2 1 [0, 0] [0, 0] [1, 2] "ngp").1
      = [1, 1] := by rw [hA]
  have hA2 : (dataAssign cosAtZero sinAtZero gridEx2 1 [0, 0] [0, 0] [1, 2] "ngp").2.1
      = [1, 1] := by rw [hA]
  have hA3 : (dataAssign cosAtZero sinAtZero gridEx2 1 [0, 0] [0, 0] [1, 2] "ngp").2.2
      = [1, 1] := by rw [hA]
  have hR1 : (randAssign cosAtZero sinAtZero gridEx2 1 [(2, 0, 0)] "ngp").1
      = [0, 1] := by rw [hR]
  have hR2 : (randAssign cosAtZero sinAtZero gridEx2 1 [(2, 0, 0)] "ngp").2.1
      = [0, 1] := by rw [hR]
  have hR3 : (randAssign cosAtZero sinAtZero gridEx2 1 [(2, 0, 0)] "ngp").2.2
      = [0, 1] := by rw [hR]
  have hd : densityArr [1, 1] [0, 1] = [FPx.inf, FPx.fin (-(1/2))] := by
    norm_num [densityArr, FP.div, FP.sub, List.zipWith, List.sum_cons, List.sum_nil]
  have herr : (densityErrArr 100 [0, 1]).map (fun v => !(FPx.isnan v))
      = [true, true] := by
    unfold densityErrArr
    simp only [List.map_cons, List.map_nil, Int.cast_zero, Int.cast_one]
    rw [FP_div_fin_zero_pos (by norm_num), FP_div_fin_fin (by norm_num),
      fpSqrt_inf, fpSqrt_fin_nonneg (by norm_num)]
    rfl
  have hok : grid_data_density_core cosAtZero sinAtZero gridEx2 1 [0, 0] [0, 0] [1, 2]
      "ngp" true 100 "cartesian" [(2, 0, 0)]
      = Except.ok ((gridEx2.withAssign [1, 1] [1, 1] [1, 1]).withRandomDensity
          [0, 1] [0, 1] [0, 1] [FPx.inf, FPx.fin (-(1/2))]
          (densityErrArr 100 [0, 1]) (densityNincellArr [1, 1] [0, 1])) := by
    have h0 := (core_eq_checked cosAtZero sinAtZero gridEx2 1 [0, 0] [0, 0] [1, 2]
      "ngp" true 100 "cartesian" [(2, 0, 0)] (by decide)).trans
      (checked_ok_form cosAtZero sinAtZero gridEx2 1 [0, 0] [0, 0] [1, 2]
        (pyLower "ngp") 100 "cartesian" [(2, 0, 0)] (Or.inr (Or.inr rfl)))
    rw [hpl] at h0
    rw [hA1, hA2, hA3, hR1, hR2, hR3, hd] at h0
    exact h0
  have hmap : grid_data_density cosAtZero sinAtZero gridEx2 1 [0, 0] [0, 0] [1, 2]
      "ngp" none none true 100 "cartesian" [(2, 0, 0)]
      = Except.ok (cut_grid ((gridEx2.withAssign [1, 1] [1, 1] [1, 1]).withRandomDensity
          [0, 1] [0, 1] [0, 1] [FPx.inf, FPx.fin (-(1/2))]
          (densityErrArr 100 [0, 1]) (densityNincellArr [1, 1] [0, 1]))
          true none none none none none none) := by
    unfold grid_data_density
    rw [hok]
    rfl
  have hmask : cut_mask ((gridEx2.withAssign [1, 1] [1, 1] [1, 1]).withRandomDensity
      [0, 1] [0, 1] [0, 1] [FPx.inf, FPx.fin (-(1/2))]
      (densityErrArr 100 [0, 1]) (densityNincellArr [1, 1] [0, 1]))
      true none none none none none none = [true, true] := by
    unfold cut_mask critMask nanMask
    simp only [Grid.withRandomDensity, Grid.withAssign, gridEx2]
    rw [herr]
    rfl
  refine ⟨?_, ?_, hR1, hR3⟩
  · rw [hmap]
    simp only [okDensity]
    unfold cut_grid
    rw [hmask]
    rfl
  · rw [hmap]
    simp only [okRaLen]
    unfold cut_grid
    rw [hmask]
    rfl

/-! The window-function solver at zero wavenumber. -/

/-- The trapezoidal rule applied to a constant integrand telescopes to
the width of the integration interval. -/
theorem trapz_const (c : ℝ) (x : ℕ → ℝ) (n : ℕ) :
    trapz (fun _ => c) x n = c * (x (n-1) - x 0) := by
  unfold trapz
  calc ∑ i in Finset.range (n-1), (x (i+1) - x i) * (c + c) / 2
      = ∑ i in Finset.range (n-1), c * (x (i+1) - x i) :=
        Finset.sum_congr rfl (fun i _ => by ring)
    _ = c * ∑ i in Finset.range (n-1), (x (i+1) - x i) := by rw [Finset.mul_sum]
    _ = c * (x (n-1) - x 0) := by rw [Finset.sum_range_sub]

/-- A constant factor passes out of the trapezoidal rule. -/
theorem trapz_mul_const (y : ℕ → ℝ) (c : ℝ) (x : ℕ → ℝ) (n : ℕ) :
    trapz (fun i => y i * c) x n = c * trapz y x n := by
  unfold trapz
  rw [Finset.mul_sum]
  exact Finset.sum_congr rfl (fun i _ => by ring)

/-- At k = 0 every sinc factor is 1, the azimuthal integral of each row
telescopes to 2 pi sin(theta_i), and the window reduces to half the
trapezoidal approximation of the integral of sin over [0, pi] —
independent of the grid size and of the kernel order. -/
theorem window_at_zero (gs : ℝ) (order : ℕ) (n : ℕ) (hn : 2 ≤ n) :
    window_at gs 0 order n = sinTrapz n / 2 := by
  unfold window_at
  have h1 : ∀ y : ℝ, npSinc (0 * gs / (2 * Real.pi) * y) = 1 := by
    intro y
    rw [zero_mul, zero_div, zero_mul]
    simp [npSinc]
  simp only [h1, one_mul, one_pow]
  have hphi : linspace 0 (2*Real.pi) n (n-1) - linspace 0 (2*Real.pi) n 0
      = 2*Real.pi := by
    unfold linspace
    have h1n : 1 ≤ n := le_trans one_le_two hn
    have hcast : ((n-1 : ℕ) : ℝ) = (n:ℝ) - 1 := by
      rw [Nat.cast_sub h1n]
      norm_num
    rw [hcast]
    have hne : (n:ℝ) - 1 ≠ 0 := by
      have h2 : (2:ℝ) ≤ (n:ℝ) := by exact_mod_cast hn
      intro hc
      nlinarith
    field_simp
  have h2 : (fun i => trapz (fun _ => Real.sin (linspace 0 Real.pi n i))
      (linspace 0 (2*Real.pi) n) n)
      = fun i => Real.sin (linspace 0 Real.pi n i) * (2*Real.pi) := by
    funext i
    rw [trapz_const]
    rw [hphi]
  rw [h2, trapz_mul_const]
  unfold sinTrapz
  have hpi : Real.pi ≠ 0 := Real.pi_ne_zero
  field_simp
  ring

/-- The three-sample trapezoidal approximation of the integral of sin
over [0, pi] is pi/2 (the exact integral is 2). -/
theorem sinTrapz_three : sinTrapz 3 = Real.pi / 2 := by
  unfold sinTrapz trapz linspace
  norm_num [Finset.sum_range_succ]
  ring

/-- C9 (amended): at wavenumber 0 and any nonzero grid size,
compute_grid_window returns, for every kernel, half the n-sample
trapezoidal approximation of the integral of sin over [0, pi] — a value
independent of the kernel and of the grid size, equal to 1 only in the
n → infinity limit; at n = 3 it equals pi/4, which is not 1. -/
theorem compute_grid_window_at_zero (gs : ℝ) (hgs : gs ≠ 0) (n : ℕ)
    (hn : 2 ≤ n) (kind : String) (hkind : kind ∈ _GRID_KIND) :
    compute_grid_window gs [0] kind n = Except.ok (some [sinTrapz n / 2])
    ∧ sinTrapz 3 / 2 = Real.pi / 4
    ∧ (Real.pi / 4 : ℝ) ≠ 1 := by
  refine ⟨?_, by rw [sinTrapz_three]; ring, ?_⟩
  · unfold compute_grid_window
    rw [if_pos hkind, if_neg hgs]
    unfold _compute_grid_window
    simp only [List.map_cons, List.map_nil]
    rw [window_at_zero gs (_order_dic kind) n hn]
  · intro hc
    have h := Real.pi_lt_315
    nlinarith

/-- C9 counterexample: the window function computed at k = 0 with
integration resolution n = 3 equals pi/4 (for grid size 1 and the NGP
kernel), not 1 as the claim asserts for every resolution. -/
theorem window_at_k_zero_not_one :
    compute_grid_window 1 [0] "ngp" 3 = Except.ok (some [Real.pi / 4])
    ∧ (Real.pi / 4 : ℝ) ≠ 1 := by
  constructor
  · unfold compute_grid_window
    rw [if_pos (by decide), if_neg one_ne_zero]
    unfold _compute_grid_window
    simp only [List.map_cons, List.map_nil]
    rw [window_at_zero 1 (_order_dic "ngp") 3 (by norm_num), sinTrapz_three]
    have hq : Real.pi / 2 / 2 = Real.pi / 4 := by ring
    rw [hq]
  · intro hc
    have h := Real.pi_lt_315
    nlinarith

/-- C9 witness: the amended theorem instantiated at grid size 2, the TSC
kernel and resolution 3, with all hypotheses discharged. -/
theorem compute_grid_window_at_zero_witness :
    compute_grid_window 2 [0] "tsc" 3 = Except.ok (some [sinTrapz 3 / 2])
    ∧ sinTrapz 3 / 2 = Real.pi / 4 := by
  have h := compute_grid_window_at_zero 2 (by norm_num) 3 (by norm_num) "tsc"
    (by decide)
  exact ⟨h.1, h.2.1⟩

end Flip
